import Mathlib

/-!
Verification of the a_quant backtesting engine (Python) against its
natural-language specification, via a shallow embedding in Lean 4.

Conventions of the embedding:
* Python floats are modelled as exact rationals (`ℚ`).  All concrete values
  checked below are far from binary-representation boundaries and from
  round-half ties, so the `ℚ` results coincide with the float results.
* `float('nan')` (e.g. the pandas standard deviation of a one-row series)
  is modelled as `Option.none`.
* Trade dates are already-unified `YYYYMMDD` numbers (`ℕ`).  The source's
  `_unify_date_format` normalises any input date string to that form and the
  lexicographic order on the 8-digit strings agrees with the numeric order.
* Python dicts keyed by stock code are association lists in insertion order.
* Python `round(x, n)` rounds half to even; `int(x)` truncates toward zero.
  Both are reproduced exactly on `ℚ`.
-/

/-! ## Configuration constants, from `src/config/config.py` -/

def COMMISSION_RATE : ℚ := 0.0001

def STAMP_DUTY_RATE : ℚ := 0.001

def SLIPPAGE_RATE : ℚ := 0.001

def MAX_POSITION_COUNT : ℕ := 5

def MAIN_BOARD_LIMIT_UP_RATE : ℚ := 0.098

def STAR_BOARD_LIMIT_UP_RATE : ℚ := 0.198

/-- Modelled from the spec: `BJ_BOARD_LIMIT_UP_RATE` is imported by the
strategies from `config.config` but is absent from `src/config/config.py`.
The strategy's own docstring (`0=北交所`, "no limit for the Beijing
exchange") and the spec's board table fix it as 0. -/
def BJ_BOARD_LIMIT_UP_RATE : ℚ := 0

def T_PLUS_1 : Bool := true

def MIN_TRADE_VOLUME : ℤ := 100

def RISK_FREE_RATE : ℚ := 0.03

def ANNUAL_TRADE_DAYS : ℕ := 252

/-! ## Numeric helpers shared by the embedding -/

/-- Python `int(x)`: truncation toward zero. -/
def pyInt (q : ℚ) : ℤ := if 0 ≤ q then ⌊q⌋ else -⌊-q⌋

/-- Python `round` on a value scaled to an integer: round half to even. -/
def roundHalfEven (y : ℚ) : ℤ :=
  if y - ⌊y⌋ = 1/2 then (if Even ⌊y⌋ then ⌊y⌋ else ⌊y⌋ + 1) else round y

/-- Python `round(x, d)`. -/
def roundTo (d : ℕ) (x : ℚ) : ℚ := (roundHalfEven (x * 10 ^ d) : ℚ) / 10 ^ d

/-! ## `Position` (`src/backtest/account.py`, class Position) -/

structure Position where
  ts_code : String
  buy_price : ℚ
  buy_volume : ℤ
  buy_date : ℕ
  hold_days : ℕ
  can_sell : Bool
  buy_total_cost : ℚ
  deriving DecidableEq, Repr

/-- Constructor `Position.__init__`: `hold_days = 0`, `can_sell = False`. -/
def Position.init (ts_code : String) (buy_price : ℚ) (buy_volume : ℤ)
    (buy_date : ℕ) (buy_total_cost : ℚ) : Position :=
  { ts_code := ts_code, buy_price := buy_price, buy_volume := buy_volume
    buy_date := buy_date, hold_days := 0, can_sell := false
    buy_total_cost := buy_total_cost }

/-- `Position.update_can_sell`: recompute the T+1 sellability flag from the
buy date and the current trade date (dates assumed valid, hence truthy). -/
def Position.update_can_sell (p : Position) (current_trade_date : ℕ) : Position :=
  { p with can_sell := if T_PLUS_1 then decide (p.buy_date < current_trade_date) else true }

/-- `Position.update_hold_days`: bump `hold_days` once the date has advanced
past the buy date, and recompute `can_sell` exactly as `update_can_sell`. -/
def Position.update_hold_days (p : Position) (current_trade_date : ℕ) : Position :=
  let p1 := if p.buy_date < current_trade_date then { p with hold_days := p.hold_days + 1 } else p
  { p1 with can_sell := if T_PLUS_1 then decide (p.buy_date < current_trade_date) else true }

/-! ## Trade records and the positions map -/

inductive Direction where
  | buyDir : Direction
  | sellDir : Direction
  deriving DecidableEq, Repr

/-- One row of `Account.trade_history`.  Buy rows carry no `total_income`
key and sell rows no `total_cost` key (the source appends plain dicts);
the absent key is `none`, matching the NaN that pandas fills in. -/
structure Trade where
  trade_date : ℕ
  ts_code : String
  direction : Direction
  price : ℚ
  volume : ℤ
  commission : ℚ
  stamp_duty : ℚ
  total_cost : Option ℚ
  total_income : Option ℚ
  sell_pnl : Option ℚ
  deriving DecidableEq, Repr

/-- Dict membership/read: first entry with the given key. -/
def posLookup (ps : List (String × Position)) (ts : String) : Option Position :=
  match ps with
  | [] => none
  | (k, v) :: rest => if k = ts then some v else posLookup rest ts

/-- In-place mutation of the Position object stored under a key (Python
mutates the shared object, which is visible through the dict). -/
def posUpdate (ps : List (String × Position)) (ts : String) (f : Position → Position) :
    List (String × Position) :=
  ps.map (fun e => if e.1 = ts then (e.1, f e.2) else e)

/-- Dict `del`: drop the entry with the given key. -/
def posErase (ps : List (String × Position)) (ts : String) : List (String × Position) :=
  ps.filter (fun e => e.1 ≠ ts)

/-- One row of `Account.daily_net_value` (the English-keyed fields the rest
of the system reads; the Chinese-labelled duplicates of the same values and
the static strategy-name/backtest-range strings are omitted). -/
structure NetRecord where
  trade_date : ℕ
  total_asset : ℚ
  available_cash : ℚ
  position_count : ℕ
  total_position_value : ℚ
  daily_pnl : ℚ
  daily_pnl_rate : ℚ
  total_pnl : ℚ
  total_pnl_rate : ℚ
  deriving DecidableEq, Repr

/-! ## `Account` (`src/backtest/account.py`, class Account) -/

structure Account where
  init_capital : ℚ
  available_cash : ℚ
  total_asset : ℚ
  max_position_count : ℕ
  per_position_cash : ℚ
  positions : List (String × Position)
  trade_history : List Trade
  daily_net_value : List NetRecord
  prev_total_asset : ℚ
  daily_sold_pnl : List ((ℕ × String) × ℚ)
  deriving DecidableEq, Repr

/-- Constructor `Account.__init__`. -/
def Account.init (init_capital : ℚ) (max_position_count : ℕ) : Account :=
  { init_capital := init_capital
    available_cash := init_capital
    total_asset := init_capital
    max_position_count := max_position_count
    per_position_cash := init_capital / max_position_count
    positions := []
    trade_history := []
    daily_net_value := []
    prev_total_asset := init_capital
    daily_sold_pnl := [] }

/-- `Account.get_available_position_count` (a Python int, possibly ≤ 0). -/
def Account.get_available_position_count (a : Account) : ℤ :=
  (a.max_position_count : ℤ) - a.positions.length

/-- `Account.buy`: returns the Python boolean result together with the
account state after the call. -/
def Account.buy (a : Account) (trade_date : ℕ) (ts_code : String) (price : ℚ) :
    Bool × Account :=
  if a.get_available_position_count ≤ 0 then (false, a)
  else if (posLookup a.positions ts_code).isSome then (false, a)
  else
    let actual_price := price * (1 + SLIPPAGE_RATE)
    let max_can_buy : ℤ :=
      pyInt (a.per_position_cash / (actual_price * (MIN_TRADE_VOLUME : ℚ))) * MIN_TRADE_VOLUME
    if max_can_buy < MIN_TRADE_VOLUME then (false, a)
    else
      let commission := max ((max_can_buy : ℚ) * actual_price * COMMISSION_RATE) 5
      let total_cost := (max_can_buy : ℚ) * actual_price + commission
      if a.available_cash < total_cost then (false, a)
      else
        (true,
          { a with
            available_cash := a.available_cash - total_cost
            positions := a.positions ++
              [(ts_code, Position.init ts_code actual_price max_can_buy trade_date total_cost)]
            trade_history := a.trade_history ++
              [{ trade_date := trade_date, ts_code := ts_code, direction := .buyDir
                 price := roundTo 4 actual_price, volume := max_can_buy
                 commission := roundTo 2 commission, stamp_duty := 0
                 total_cost := some (roundTo 2 total_cost), total_income := none
                 sell_pnl := none }] })

/-- Overwrite-or-insert into `daily_sold_pnl` (a dict of dicts keyed by
(date, code) pairs). -/
def soldPnlUpdate (m : List ((ℕ × String) × ℚ)) (d : ℕ) (ts : String) (pnl : ℚ) :
    List ((ℕ × String) × ℚ) :=
  m.filter (fun e => e.1 ≠ (d, ts)) ++ [((d, ts), pnl)]

/-- `Account.sell`.  Note the source mutates the held `Position` object
(`position.update_can_sell(trade_date)`) before the sellability check, so
the updated flag is visible through the positions map even on rejection. -/
def Account.sell (a : Account) (trade_date : ℕ) (ts_code : String) (price : ℚ) :
    Bool × Account :=
  match posLookup a.positions ts_code with
  | none => (false, a)
  | some pos0 =>
    let pos := pos0.update_can_sell trade_date
    let ps1 := posUpdate a.positions ts_code (fun p => p.update_can_sell trade_date)
    if pos.can_sell = false then (false, { a with positions := ps1 })
    else
      let actual_price := price * (1 - SLIPPAGE_RATE)
      let volume := pos.buy_volume
      let commission := max ((volume : ℚ) * actual_price * COMMISSION_RATE) 5
      let stamp_duty := (volume : ℚ) * actual_price * STAMP_DUTY_RATE
      let total_income := (volume : ℚ) * actual_price - commission - stamp_duty
      let sell_pnl := total_income - pos.buy_total_cost
      (true,
        { a with
          available_cash := a.available_cash + total_income
          positions := posErase ps1 ts_code
          daily_sold_pnl := soldPnlUpdate a.daily_sold_pnl trade_date ts_code sell_pnl
          trade_history := a.trade_history ++
            [{ trade_date := trade_date, ts_code := ts_code, direction := .sellDir
               price := roundTo 4 actual_price, volume := volume
               commission := roundTo 2 commission, stamp_duty := roundTo 2 stamp_duty
               total_cost := none, total_income := some (roundTo 2 total_income)
               sell_pnl := some (roundTo 2 sell_pnl) }] })

/-- One row of the engine's per-day dataframe `daily_df` (the columns the
simulation reads; `volume`/`amount` are selected but never used). -/
structure DailyRow where
  ts_code : String
  openPrice : ℚ
  high : ℚ
  low : ℚ
  close : ℚ
  pre_close : ℚ
  deriving DecidableEq, Repr

/-- Pandas `df[df["ts_code"] == ts].iloc[0]`: first row for the code. -/
def findRow (df : List DailyRow) (ts : String) : Option DailyRow :=
  df.find? (fun r => r.ts_code = ts)

/-- `Account.update_daily_asset`: end-of-day settlement.  Updates every
position's hold-days/sellability, marks positions to the day's close
(falling back to cost when the symbol has no row), recomputes the total
asset, appends one net-value record and rolls the P&L baseline forward. -/
def Account.update_daily_asset (a : Account) (trade_date : ℕ) (daily_price_df : List DailyRow) :
    Account :=
  let ps := a.positions.map (fun e => (e.1, e.2.update_hold_days trade_date))
  let closeOf : String × Position → ℚ := fun e =>
    match findRow daily_price_df e.1 with
    | some r => r.close
    | none => e.2.buy_price
  let total_position_value := (ps.map (fun e => (e.2.buy_volume : ℚ) * closeOf e)).sum
  let total_asset := a.available_cash + total_position_value
  let daily_pnl := total_asset - a.prev_total_asset
  let daily_pnl_rate := if 0 < a.prev_total_asset then daily_pnl / a.prev_total_asset * 100 else 0
  let total_pnl := total_asset - a.init_capital
  let total_pnl_rate := if 0 < a.init_capital then total_pnl / a.init_capital * 100 else 0
  { a with
    positions := ps
    total_asset := total_asset
    daily_net_value := a.daily_net_value ++
      [{ trade_date := trade_date
         total_asset := roundTo 2 total_asset
         available_cash := roundTo 2 a.available_cash
         position_count := ps.length
         total_position_value := roundTo 2 total_position_value
         daily_pnl := roundTo 2 daily_pnl
         daily_pnl_rate := roundTo 2 daily_pnl_rate
         total_pnl := roundTo 2 total_pnl
         total_pnl_rate := roundTo 2 total_pnl_rate }]
    prev_total_asset := total_asset
    daily_sold_pnl := a.daily_sold_pnl.filter (fun e => e.1.1 ≠ trade_date) }

/-! ## `MultiLimitUpStrategy` (`src/strategies/multi_limit_up_strategy.py`)

The `FILTER_BSE_STOCK` / `FILTER_STAR_BOARD` / `FILTER_MAIN_BOARD` switches
are imported by the strategy from `config.config` but are absent from
`src/config/config.py`; they are taken here as explicit parameters and the
theorems below quantify over them. -/

namespace MultiLimitUpStrategy

def limit_up_price_tolerance : ℚ := 0.999

/-- Sell timing configured for a same-day blow-up (`SELL_TYPE_AFTER_BLOWUP`). -/
def SELL_TYPE_AFTER_BLOWUP : String := "open"

/-- Boolean character-list prefix test (kernel-computable core of
`str.startswith`). -/
def charPrefix : List Char → List Char → Bool
  | [], _ => true
  | _ :: _, [] => false
  | p :: ps, c :: cs => if p = c then charPrefix ps cs else false

/-- Python `s.startswith(pre)`. -/
def pyStartsWith (s pre : String) : Bool := charPrefix pre.data s.data

/-- Left part of `ts_code.split('.')` (the codes carry exactly one dot). -/
def tsSplitCode (ts : String) : String := String.mk (ts.data.takeWhile (fun c => c ≠ '.'))

/-- Right part of `ts_code.split('.')` (the codes carry exactly one dot). -/
def tsSplitExch (ts : String) : String :=
  String.mk ((ts.data.dropWhile (fun c => c ≠ '.')).drop 1)

/-- `get_limit_up_rate_by_ts_code`: board classification by code prefix. -/
def get_limit_up_rate_by_ts_code (ts_code : String) : ℚ :=
  let code := tsSplitCode ts_code
  let exch := tsSplitExch ts_code
  if pyStartsWith code ("83") ∨ pyStartsWith code ("87") ∨ pyStartsWith code ("88") ∨ exch = "BJ" then
    BJ_BOARD_LIMIT_UP_RATE
  else if pyStartsWith code ("30") ∨ pyStartsWith code ("688") then
    STAR_BOARD_LIMIT_UP_RATE
  else MAIN_BOARD_LIMIT_UP_RATE

/-- `calc_limit_up_price`: 0 on a non-positive previous close, otherwise the
previous close scaled by the board band and rounded to 2 decimals. -/
def calc_limit_up_price (ts_code : String) (pre_close : ℚ) : ℚ :=
  if pre_close ≤ 0 then 0
  else roundTo 2 (pre_close * (1 + get_limit_up_rate_by_ts_code ts_code))

/-- `_filter_stock_by_type`, parameterized by the three filter switches. -/
def filter_stock_by_type (fBse fStar fMain : Bool) (ts_code : String) : Bool :=
  let code := tsSplitCode ts_code
  let exch := tsSplitExch ts_code
  let is_bse := pyStartsWith code ("83") ∨ pyStartsWith code ("87") ∨ pyStartsWith code ("88") ∨ exch = "BJ"
  if fBse ∧ is_bse then false
  else
    let is_star_board := pyStartsWith code ("300") ∨ pyStartsWith code ("688")
    if fStar ∧ is_star_board then false
    else
      let is_main_board := ¬ (is_bse ∨ is_star_board)
      if fMain ∧ is_main_board then false
      else true

/-- One intraday (minute) bar; only the columns the scans read. -/
structure Bar where
  trade_time : ℕ
  high : ℚ
  low : ℚ
  close : ℚ
  deriving DecidableEq, Repr

/-- `min_df.sort_values("trade_time")`. -/
def sortBars (bars : List Bar) : List Bar :=
  bars.mergeSort (fun x y => x.trade_time ≤ y.trade_time)

/-- `get_first_limit_time`: earliest bar whose high touches the tolerant
limit, `none` when no bar does. -/
def get_first_limit_time (min_df : List Bar) (limit_price : ℚ) : Option ℕ :=
  let threshold := limit_price * limit_up_price_tolerance
  let hit := min_df.filter (fun b => threshold ≤ b.high)
  ((sortBars hit).head?).map Bar.trade_time

/-- Scan loop of `check_reopen` over the time-sorted bars: at each bar whose
low drops below the threshold, return its own time if its close reseals,
else the next bar's time if that close reseals, else keep scanning. -/
def reopenScan (threshold : ℚ) : List Bar → Option ℕ
  | [] => none
  | b :: rest =>
    if b.low < threshold then
      if threshold ≤ b.close then some b.trade_time
      else
        match rest with
        | [] => none
        | nb :: _ =>
          if threshold ≤ nb.close then some nb.trade_time
          else reopenScan threshold rest
    else reopenScan threshold rest

/-- `check_reopen`: gap-lock reseal detection.  The source's
`min_df['low'].min() >= threshold` short-circuit is the second branch (a
pandas min of an empty column is NaN, and `NaN >= x` is False, so the empty
frame falls through to the scan, which returns `None`). -/
def check_reopen (min_df : List Bar) (limit_price : ℚ) (daily_open : ℚ) : Option ℕ :=
  let threshold := limit_price * limit_up_price_tolerance
  if daily_open < threshold then none
  else if ¬ min_df.isEmpty ∧ ∀ b ∈ min_df, threshold ≤ b.low then none
  else reopenScan threshold (sortBars min_df)

/-- Candidate loop of `select_buy_stocks`, collecting `(code, entry time)`
hits in candidate order (`hits[ts] = t`). -/
def hitsList (minData : String → List Bar) : List (DailyRow × ℚ) → List (String × ℕ)
  | [] => []
  | (r, lup) :: rest =>
    let bars := minData r.ts_code
    if bars.isEmpty then hitsList minData rest
    else if lup * limit_up_price_tolerance ≤ r.openPrice then
      match check_reopen bars lup r.openPrice with
      | none => hitsList minData rest
      | some t => (r.ts_code, t) :: hitsList minData rest
    else
      match get_first_limit_time bars lup with
      | none => hitsList minData rest
      | some t => (r.ts_code, t) :: hitsList minData rest

/-- `select_buy_stocks`: type/price filtering, vectorized limit prices,
candidate pool, per-candidate hit times, sort by hit time, truncate to the
free slots.  `minData` stands for the cached per-(code, date) minute
fetch (`_batch_get_min_df`), an input of the simulated day. -/
def select_buy_stocks (fBse fStar fMain : Bool) (daily_df : List DailyRow)
    (minData : String → List Bar) (available_pos : ℤ) : List String :=
  if available_pos ≤ 0 then []
  else
    let daily_df_filtered := daily_df.filter
      (fun r => filter_stock_by_type fBse fStar fMain r.ts_code && (0 < r.pre_close))
    let withLup := daily_df_filtered.map
      (fun r => (r, roundTo 2 (r.pre_close * (1 + get_limit_up_rate_by_ts_code r.ts_code))))
    let candidates := withLup.filter (fun p => p.2 * limit_up_price_tolerance ≤ p.1.high)
    let hits := hitsList minData candidates
    let ordered := hits.mergeSort (fun x y => x.2 ≤ y.2)
    (ordered.take available_pos.toNat).map (·.1)

/-- `generate_signal`: per-position sell signals ("open" for a same-day
blow-up, "close" for an older holding off the limit), then the buy list for
the remaining free slots. -/
def generate_signal (fBse fStar fMain : Bool) (minData : String → List Bar)
    (max_position_count : ℕ) (trade_date : ℕ) (daily_df : List DailyRow)
    (positions : List (String × Position)) : List String × List (String × String) :=
  let sell_signal_map := positions.foldl
    (fun m e =>
      match findRow daily_df e.1 with
      | none => m
      | some row =>
        let limit_price := calc_limit_up_price e.1 row.pre_close
        let is_limit := limit_price * limit_up_price_tolerance ≤ row.close
        if e.2.buy_date = trade_date ∧ ¬ is_limit then m ++ [(e.1, SELL_TYPE_AFTER_BLOWUP)]
        else if e.2.buy_date ≤ trade_date ∧ ¬ is_limit then m ++ [(e.1, "close")]
        else m) []
  let available_pos : ℤ := max 0 ((max_position_count : ℤ) - positions.length)
  (select_buy_stocks fBse fStar fMain daily_df minData available_pos, sell_signal_map)

end MultiLimitUpStrategy

/-! ## `MultiStockBacktestEngine` (`src/backtest/engine.py`)

The engine is generic in the strategy object: `run` touches it only through
`generate_signal` and the carried-over `sell_signal_map`, so the strategy is
a function parameter `gen` (instantiable with
`MultiLimitUpStrategy.generate_signal`). -/

namespace MultiStockBacktestEngine

/-- Mutable state threaded through the day loop: the account plus the
strategy's carried-over `sell_signal_map`. -/
structure EngineState where
  account : Account
  sell_signal_map : List (String × String)
  deriving DecidableEq, Repr

/-- Signature of `strategy.generate_signal(trade_date, daily_df, positions)`. -/
def SignalGen : Type :=
  ℕ → List DailyRow → List (String × Position) → List String × List (String × String)

/-- One iteration of the day loop of `run` (steps 1 and 3–7 of the source:
daily data, carried-over "open" sells, signal generation, buys against the
free slots, "close" sells, end-of-day asset update), translated inline. -/
def runDay (gen : SignalGen) (st : EngineState) (trade_date : ℕ) (daily_df : List DailyRow) :
    EngineState :=
  if daily_df.isEmpty then st
  else
    let acct1 := st.sell_signal_map.foldl
      (fun a e =>
        if e.2 = "open" then
          match findRow daily_df e.1 with
          | some row => (a.sell trade_date e.1 row.openPrice).2
          | none => a
        else a) st.account
    let sig := gen trade_date daily_df acct1.positions
    let buy_stocks := sig.1
    let sell_signal_map := sig.2
    let available_count := acct1.get_available_position_count
    let acct2 :=
      if 0 < available_count ∧ ¬ buy_stocks.isEmpty then
        (buy_stocks.take available_count.toNat).foldl
          (fun a ts =>
            match findRow daily_df ts with
            | none => a
            | some row =>
              if row.pre_close ≤ 0 then a
              else
                let limit_up_price := MultiLimitUpStrategy.calc_limit_up_price ts row.pre_close
                if limit_up_price ≤ 0 then a
                else (a.buy trade_date ts limit_up_price).2) acct1
      else acct1
    let acct3 := sell_signal_map.foldl
      (fun a e =>
        if e.2 = "close" then
          match findRow daily_df e.1 with
          | some row => (a.sell trade_date e.1 row.close).2
          | none => a
        else a) acct2
    let acct4 := acct3.update_daily_asset trade_date daily_df
    { account := acct4, sell_signal_map := sell_signal_map }

/-- Step 3 of `run` as a named phase: execute the carried-over sells tagged
"open" at the day's open price. -/
def execOpenSells (trade_date : ℕ) (daily_df : List DailyRow)
    (pending : List (String × String)) (acct : Account) : Account :=
  pending.foldl
    (fun a e =>
      if e.2 = "open" then
        match findRow daily_df e.1 with
        | some row => (a.sell trade_date e.1 row.openPrice).2
        | none => a
      else a) acct

/-- Step 5 of `run` as a named phase: buys in candidate order against the
free slots of the account the phase receives, skipping symbols without a
row or with an invalid reference price. -/
def execBuys (trade_date : ℕ) (daily_df : List DailyRow) (buy_stocks : List String)
    (acct : Account) : Account :=
  let available_count := acct.get_available_position_count
  if 0 < available_count ∧ ¬ buy_stocks.isEmpty then
    (buy_stocks.take available_count.toNat).foldl
      (fun a ts =>
        match findRow daily_df ts with
        | none => a
        | some row =>
          if row.pre_close ≤ 0 then a
          else
            let limit_up_price := MultiLimitUpStrategy.calc_limit_up_price ts row.pre_close
            if limit_up_price ≤ 0 then a
            else (a.buy trade_date ts limit_up_price).2) acct
  else acct

/-- Step 6 of `run` as a named phase: execute today's sells tagged "close"
at the day's close price. -/
def execCloseSells (trade_date : ℕ) (daily_df : List DailyRow)
    (sigmap : List (String × String)) (acct : Account) : Account :=
  sigmap.foldl
    (fun a e =>
      if e.2 = "close" then
        match findRow daily_df e.1 with
        | some row => (a.sell trade_date e.1 row.close).2
        | none => a
      else a) acct

/-- The day loop of `run` decomposed into its phases, in the order the
source executes them: open sells, signal generation, buys, close sells,
end-of-day asset update. -/
def runDayPhased (gen : SignalGen) (st : EngineState) (trade_date : ℕ)
    (daily_df : List DailyRow) : EngineState :=
  if daily_df.isEmpty then st
  else
    let acct1 := execOpenSells trade_date daily_df st.sell_signal_map st.account
    let sig := gen trade_date daily_df acct1.positions
    let acct2 := execBuys trade_date daily_df sig.1 acct1
    let acct3 := execCloseSells trade_date daily_df sig.2 acct2
    { account := acct3.update_daily_asset trade_date daily_df, sell_signal_map := sig.2 }

/-- Modelled from the spec: the day-step in the order of spec §4.4 — open
sells, signal generation, then "close"-tagged sells, and only after those
the buys against the remaining free slots (steps 2–6 of the spec's state
machine).  Used as the reference point for the ordering claim. -/
def runDaySpecOrder (gen : SignalGen) (st : EngineState) (trade_date : ℕ)
    (daily_df : List DailyRow) : EngineState :=
  if daily_df.isEmpty then st
  else
    let acct1 := execOpenSells trade_date daily_df st.sell_signal_map st.account
    let sig := gen trade_date daily_df acct1.positions
    let acct2 := execCloseSells trade_date daily_df sig.2 acct1
    let acct3 := execBuys trade_date daily_df sig.1 acct2
    { account := acct3.update_daily_asset trade_date daily_df, sell_signal_map := sig.2 }

/-- `run`: fold the day loop over the trading calendar, then force-liquidate
the remaining holdings at the final day's close and run one more end-of-day
asset update on the final date.  `none` models the `RuntimeError` raised on
an empty trading calendar.  The final-day dataframe is refetched from the
same store, i.e. it equals the dataframe of the calendar's last entry. -/
def run (gen : SignalGen) (trade_dates : List (ℕ × List DailyRow)) (st0 : EngineState) :
    Option EngineState :=
  match trade_dates.getLast? with
  | none => none
  | some lastEntry =>
    let st := trade_dates.foldl (fun s e => runDay gen s e.1 e.2) st0
    let last_date := lastEntry.1
    let last_daily_df := lastEntry.2
    let hold_stocks := st.account.positions.map Prod.fst
    let acct1 := hold_stocks.foldl
      (fun a ts =>
        if (posLookup a.positions ts).isNone then a
        else
          match findRow last_daily_df ts with
          | none => a
          | some row => (a.sell last_date ts row.close).2) st.account
    let acct2 := acct1.update_daily_asset last_date last_daily_df
    some { account := acct2, sell_signal_map := st.sell_signal_map }

end MultiStockBacktestEngine

/-! ## `BacktestMetrics` (`src/backtest/metrics.py`)

`np.sqrt` and the float power `**` are irrational-valued, so they are taken
as abstract function parameters `sqrtQ` / `powQ`; every theorem below holds
for every interpretation of them.  A pandas standard deviation over fewer
than two samples is NaN, modelled as `none`. -/

namespace BacktestMetrics

/-- One row of the matched-trade frame built by `_calc_complete_trades`. -/
structure CompleteTrade where
  ts_code : String
  buy_date : ℕ
  sell_date : ℕ
  buy_cost : ℚ
  sell_income : ℚ
  profit : ℚ
  is_win : Bool
  deriving DecidableEq, Repr

/-- Matching loop of `_calc_complete_trades`: for each buy (in sorted
order) take the chronologically first later sell of the same symbol, emit
the pair and drop that sell from the pool. -/
def matchTrades : List Trade → List Trade → List CompleteTrade
  | [], _ => []
  | b :: bs, sells =>
    let matched := (((sells.filter
        (fun s => s.ts_code = b.ts_code ∧ b.trade_date < s.trade_date)).mergeSort
        (fun x y => x.trade_date ≤ y.trade_date)).head?)
    match matched with
    | none => matchTrades bs sells
    | some s =>
      let profit := s.total_income.getD 0 - b.total_cost.getD 0
      { ts_code := b.ts_code, buy_date := b.trade_date, sell_date := s.trade_date
        buy_cost := b.total_cost.getD 0, sell_income := s.total_income.getD 0
        profit := profit, is_win := decide (0 < profit) } :: matchTrades bs (sells.erase s)

/-- `_calc_complete_trades`.  The required-columns check: `total_cost`
exists as a column iff some row is a buy, `total_income` iff some row is a
sell (the ledger rows are plain dicts and pandas unions their keys). -/
def _calc_complete_trades (trades : List Trade) : List CompleteTrade :=
  if trades.isEmpty then []
  else if ¬ ((trades.any (fun t => t.total_cost.isSome)) ∧
      (trades.any (fun t => t.total_income.isSome))) then []
  else
    let buy_trades := trades.filter (fun t => t.direction = .buyDir)
    let sell_trades := trades.filter (fun t => t.direction = .sellDir)
    let buys_sorted := buy_trades.mergeSort
      (fun x y => x.ts_code < y.ts_code ∨ (x.ts_code = y.ts_code ∧ x.trade_date ≤ y.trade_date))
    matchTrades buys_sorted sell_trades

/-- Series mean (`.mean()`). -/
def listMean (xs : List ℚ) : ℚ := xs.sum / xs.length

/-- Pandas `.std()` (ddof = 1): NaN (`none`) on fewer than two samples. -/
def sampleStd (sqrtQ : ℚ → ℚ) (xs : List ℚ) : Option ℚ :=
  if xs.length < 2 then none
  else some (sqrtQ ((xs.map (fun x => (x - listMean xs) ^ 2)).sum / ((xs.length : ℚ) - 1)))

/-- `pct_change().fillna(0)`: 0 for the first row, relative change after. -/
def pct_change_fill0 (xs : List ℚ) : List ℚ :=
  match xs with
  | [] => []
  | a :: rest => 0 :: List.zipWith (fun prev cur => (cur - prev) / prev) (a :: rest) rest

/-- Running maximum (`.cummax()`). -/
def cummaxGo (acc : ℚ) : List ℚ → List ℚ
  | [] => []
  | x :: rest => max acc x :: cummaxGo (max acc x) rest

/-- Series `.cummax()`. -/
def cummax : List ℚ → List ℚ
  | [] => []
  | x :: rest => x :: cummaxGo x rest

/-- Constructed state of the class: the `total_asset` column of the净值
frame, the capital, the ledger, the optional benchmark and the derived
`daily_return` column. -/
structure State where
  net_values : List ℚ
  init_capital : ℚ
  trades : List Trade
  benchmark : Option (List ℚ)
  daily_return : List ℚ
  deriving Repr

/-- `BacktestMetrics.__init__`: the two `ValueError` guards, then the
derived daily-return column.  `.error` models the raise. -/
def mk? (net_values : List ℚ) (init_capital : ℚ) (trades : List Trade)
    (benchmark : Option (List ℚ)) : Except String State :=
  if net_values.isEmpty then .error ("净值曲线不能为空，且必须包含total_asset列！")
  else if init_capital ≤ 0 then .error ("初始本金必须大于0！")
  else .ok
    { net_values := net_values, init_capital := init_capital, trades := trades
      benchmark := benchmark, daily_return := pct_change_fill0 net_values }

/-- `_calc_information_ratio`: NaN without a benchmark or on a length
mismatch; 0 when the active return has zero volatility. -/
def calc_information_ratio (sqrtQ : ℚ → ℚ) (m : State) : Option ℚ :=
  match m.benchmark with
  | none => none
  | some bench =>
    if bench.length ≠ m.daily_return.length then none
    else
      let active := List.zipWith (fun a b => a - b) m.daily_return bench
      match sampleStd sqrtQ active with
      | none => none
      | some s =>
        if s = 0 then some 0
        else some (listMean active * (ANNUAL_TRADE_DAYS : ℚ) / (s * sqrtQ (ANNUAL_TRADE_DAYS : ℚ)))

/-- Metrics dictionary returned by `calc_all_metrics` (numeric entries;
`none` is the NaN / "无基准" case). -/
structure MetricsResult where
  final_asset : ℚ
  total_return : ℚ
  annual_return : ℚ
  annual_vol : Option ℚ
  max_drawdown : ℚ
  sharpe_ratio : Option ℚ
  information_ratio : Option ℚ
  win_rate : ℚ
  total_trade_times : ℕ
  total_days : ℕ
  deriving DecidableEq, Repr

/-- `calc_all_metrics`: return, risk, Sharpe, information-ratio and trade
statistics over the stored series and ledger. -/
def calc_all_metrics (sqrtQ : ℚ → ℚ) (powQ : ℚ → ℚ → ℚ) (m : State) : MetricsResult :=
  let total_days := m.net_values.length
  let final_asset := (m.net_values.getLast?).getD 0
  let total_return := (final_asset - m.init_capital) / m.init_capital * 100
  let annual_return :=
    (if 0 < total_days then
      powQ (final_asset / m.init_capital) ((ANNUAL_TRADE_DAYS : ℚ) / total_days) - 1
    else 0) * 100
  let cum_max := cummax m.net_values
  let drawdown := List.zipWith (fun a mx => (a - mx) / mx * 100) m.net_values cum_max
  let max_drawdown := (drawdown.min?).getD 0
  let daily_vol := sampleStd sqrtQ m.daily_return
  let annual_vol : Option ℚ :=
    match daily_vol with
    | none => none
    | some v => if v ≠ 0 then some (v * sqrtQ (ANNUAL_TRADE_DAYS : ℚ)) else some 0
  let excess := m.daily_return.map (fun r => r - RISK_FREE_RATE / (ANNUAL_TRADE_DAYS : ℚ))
  let sharpe : Option ℚ :=
    match sampleStd sqrtQ excess with
    | none => none
    | some s => if s ≠ 0 then some (sqrtQ (ANNUAL_TRADE_DAYS : ℚ) * listMean excess / s) else some 0
  let complete_trades := _calc_complete_trades m.trades
  let total_trade_times := complete_trades.length
  let win_rate :=
    if 0 < total_trade_times then
      ((complete_trades.filter (fun c => c.is_win)).length : ℚ) / (total_trade_times : ℚ) * 100
    else 0
  { final_asset := roundTo 2 final_asset
    total_return := roundTo 2 total_return
    annual_return := roundTo 2 annual_return
    annual_vol := annual_vol.map (fun v => roundTo 2 (v * 100))
    max_drawdown := roundTo 2 max_drawdown
    sharpe_ratio := sharpe.map (roundTo 2)
    information_ratio := (calc_information_ratio sqrtQ m).map (roundTo 2)
    win_rate := roundTo 2 win_rate
    total_trade_times := total_trade_times
    total_days := total_days }

end BacktestMetrics

/-! ## Spec-side reference definition for the gap-lock reseal rule -/

namespace MultiLimitUpStrategy

/-- Modelled from the spec: scan the day's bars chronologically for the
first bar where the price drops below the (tolerant) limit threshold and
the price returns to at least the threshold in the same or the next bar;
the entry instant is that reseal bar's timestamp, `none` when no such
open-then-reseal pattern exists.  Reference point for the refinement
theorem about `check_reopen`. -/
def resealSpec (threshold : ℚ) : List Bar → Option ℕ
  | [] => none
  | [b] =>
    if b.low < threshold ∧ threshold ≤ b.close then some b.trade_time else none
  | b :: nb :: rest =>
    if b.low < threshold ∧ (threshold ≤ b.close ∨ threshold ≤ nb.close) then
      some (if threshold ≤ b.close then b.trade_time else nb.trade_time)
    else resealSpec threshold (nb :: rest)

/-- Vectorized limit price of `select_buy_stocks`
(`(pre_close * (1 + rate)).round(2)`). -/
def lupOf (r : DailyRow) : ℚ :=
  roundTo 2 (r.pre_close * (1 + get_limit_up_rate_by_ts_code r.ts_code))

end MultiLimitUpStrategy

/-! ## Named formulas of `Account.buy` / `Account.sell`, for the theorems -/

/-- Total cost a buy of the given quoted price would charge (slippage-
adjusted notional of the floored lot count plus the floored-at-5
commission), exactly as computed inside `Account.buy`. -/
def buyTotalCost (a : Account) (price : ℚ) : ℚ :=
  let actual_price := price * (1 + SLIPPAGE_RATE)
  let max_can_buy : ℤ :=
    pyInt (a.per_position_cash / (actual_price * (MIN_TRADE_VOLUME : ℚ))) * MIN_TRADE_VOLUME
  (max_can_buy : ℚ) * actual_price + max ((max_can_buy : ℚ) * actual_price * COMMISSION_RATE) 5

/-- Net proceeds a sell of the given position credits to cash (slippage-
adjusted gross minus commission and stamp duty), exactly as computed inside
`Account.sell`.  It is negative when the gross proceeds fall below the
5-unit commission floor plus the duty. -/
def sellNetIncome (pos : Position) (price : ℚ) : ℚ :=
  let actual_price := price * (1 - SLIPPAGE_RATE)
  (pos.buy_volume : ℚ) * actual_price -
    max ((pos.buy_volume : ℚ) * actual_price * COMMISSION_RATE) 5 -
    (pos.buy_volume : ℚ) * actual_price * STAMP_DUTY_RATE

/-! ## Concrete data used by the witnesses and counterexamples -/

/-- A 100-share position bought on 2024-01-01 at 10.01 for a 1006 total. -/
def posHeld : Position :=
  { ts_code := "X", buy_price := 10.01, buy_volume := 100, buy_date := 20240101
    hold_days := 0, can_sell := false, buy_total_cost := 1006 }

/-- An account holding `posHeld` with ample cash. -/
def acctHeld : Account :=
  { Account.init 10000 5 with positions := [("X", posHeld)] }

/-- An account holding `posHeld` with zero free cash. -/
def acctBroke : Account :=
  { Account.init 10000 5 with available_cash := 0, positions := [("X", posHeld)] }

/-- A position whose stored `can_sell` flag is stale-true relative to a
backdated check (bought 2024-01-05, flag set by a later settlement). -/
def posStale : Position :=
  { posHeld with buy_date := 20240105, can_sell := true }

/-- Account holding `posStale`. -/
def acctStale : Account :=
  { Account.init 10000 5 with positions := [("X", posStale)] }

/-- Day-frame row for the ordering scenario: held main-board stock A off
its limit (close sell signal due). -/
def rowA3 : DailyRow :=
  { ts_code := "600000.SH", openPrice := 9, high := 9, low := 9, close := 9, pre_close := 10 }

/-- Day-frame row for the ordering scenario: fresh candidate B touching its
limit intraday. -/
def rowB3 : DailyRow :=
  { ts_code := "000001.SZ", openPrice := 1, high := 1.1, low := 1, close := 1.1, pre_close := 1 }

/-- Day frame of the ordering scenario. -/
def dfC3 : List DailyRow := [rowA3, rowB3]

/-- Minute data of the ordering scenario: one limit-touching bar for B. -/
def minDataC3 : String → List MultiLimitUpStrategy.Bar := fun ts =>
  if ts = "000001.SZ" then [{ trade_time := 931, high := 1.1, low := 1, close := 1.1 }] else []

/-- The real strategy's signal function, two slots, no board filters. -/
def genC3 : MultiStockBacktestEngine.SignalGen :=
  MultiLimitUpStrategy.generate_signal false false false minDataC3 2

/-- The held position of the ordering scenario. -/
def posA3 : Position :=
  { ts_code := "600000.SH", buy_price := 10, buy_volume := 100, buy_date := 20240101
    hold_days := 0, can_sell := false, buy_total_cost := 1006 }

/-- Two-slot account holding A with cash that only suffices for the new buy
after A's close sell has credited its proceeds. -/
def stC3 : MultiStockBacktestEngine.EngineState :=
  { account :=
    { Account.init 4000 2 with
      available_cash := 1200
      positions := [("600000.SH", posA3)] }
    sell_signal_map := [] }

/-- Gap-locked row that never reopens (for the reseal-rule witness). -/
def rC4 : DailyRow :=
  { ts_code := "600000.SH", openPrice := 11, high := 11, low := 10.98, close := 11, pre_close := 10 }

/-- Day frame of the reseal witness. -/
def dfC4 : List DailyRow := [rC4]

/-- Minute data of the reseal witness: the price never leaves the limit. -/
def minDataC4 : String → List MultiLimitUpStrategy.Bar := fun _ =>
  [{ trade_time := 930, high := 11, low := 11, close := 11 }]

/-- Inert strategy (no signals) for the net-asset-record run. -/
def genC6 : MultiStockBacktestEngine.SignalGen := fun _ _ _ => ([], [])

/-- One-day calendar with a non-empty day frame. -/
def datesC6 : List (ℕ × List DailyRow) := [(20240101, [rowA3])]

/-- Fresh engine state for the net-asset-record run. -/
def stC6 : MultiStockBacktestEngine.EngineState :=
  { account := Account.init 10000 5, sell_signal_map := [] }

/-- Lot count computed inside `Account.buy` (floored to whole lots). -/
def maxCanBuy (a : Account) (price : ℚ) : ℤ :=
  pyInt (a.per_position_cash / (price * (1 + SLIPPAGE_RATE) * (MIN_TRADE_VOLUME : ℚ))) *
    MIN_TRADE_VOLUME

/-! ## Helper lemmas about the positions map and the two order functions -/

theorem posLookup_posErase (ps : List (String × Position)) (ts : String) :
    posLookup (posErase ps ts) ts = none := by
  induction ps with
  | nil => rfl
  | cons e rest ih =>
    by_cases h : e.1 = ts
    · simpa [posErase, h] using ih
    · simpa [posErase, posLookup, h] using ih

theorem posLookup_append_single (ps : List (String × Position)) (ts : String) (p : Position)
    (h : posLookup ps ts = none) : posLookup (ps ++ [(ts, p)]) ts = some p := by
  induction ps with
  | nil => simp [posLookup]
  | cons e rest ih =>
    by_cases he : e.1 = ts
    · simp [posLookup, he] at h
    · simp only [posLookup, he] at h
      simpa [posLookup, he] using ih h

theorem posUpdate_map_fst (ps : List (String × Position)) (ts : String) (f : Position → Position) :
    (posUpdate ps ts f).map Prod.fst = ps.map Prod.fst := by
  induction ps with
  | nil => rfl
  | cons e rest ih =>
    by_cases he : e.1 = ts <;> simp [posUpdate, he] at ih ⊢ <;> simpa [posUpdate] using ih

theorem posLookup_eq_none_iff (ps : List (String × Position)) (ts : String) :
    posLookup ps ts = none ↔ ts ∉ ps.map Prod.fst := by
  induction ps with
  | nil => simp [posLookup]
  | cons e rest ih =>
    by_cases he : e.1 = ts
    · simp [posLookup, he]
    · simp only [posLookup, if_neg he, List.map_cons, List.mem_cons, ih]
      have hne : ¬ ts = e.1 := fun h => he h.symm
      tauto

theorem posUpdate_of_lookup_none (ps : List (String × Position)) (ts : String)
    (f : Position → Position) (h : posLookup ps ts = none) : posUpdate ps ts f = ps := by
  induction ps with
  | nil => rfl
  | cons e rest ih =>
    by_cases he : e.1 = ts
    · simp [posLookup, he] at h
    · simp only [posLookup, if_neg he] at h
      have h2 := ih h
      simp only [posUpdate] at h2 ⊢
      simp only [List.map_cons, if_neg he, h2]

theorem posUpdate_id_of_fixed (ps : List (String × Position)) (ts : String)
    (f : Position → Position) (hnd : (ps.map Prod.fst).Nodup) (pos : Position)
    (hl : posLookup ps ts = some pos) (hf : f pos = pos) : posUpdate ps ts f = ps := by
  induction ps with
  | nil => simp [posLookup] at hl
  | cons e rest ih =>
    simp only [List.map_cons, List.nodup_cons] at hnd
    by_cases he : e.1 = ts
    · have hpos : e.2 = pos := by simpa [posLookup, he] using hl
      have hnone : posLookup rest ts = none := by
        rw [posLookup_eq_none_iff, ← he]
        exact hnd.1
      have h2 := posUpdate_of_lookup_none rest ts f hnone
      simp only [posUpdate] at h2 ⊢
      rw [List.map_cons, if_pos he, h2, hpos, hf, ← hpos]
    · have hl' : posLookup rest ts = some pos := by simpa [posLookup, he] using hl
      have h2 := ih hnd.2 hl'
      simp only [posUpdate] at h2 ⊢
      rw [List.map_cons, if_neg he, h2]

/-- Rejection of `Account.sell` on a symbol that is not held. -/
theorem sell_not_held (a : Account) (d : ℕ) (ts : String) (price : ℚ)
    (h : posLookup a.positions ts = none) : a.sell d ts price = (false, a) := by
  simp [Account.sell, h]

/-- Rejection of `Account.sell` by the T+1 check: the result keeps the
account except for the in-place `can_sell` recomputation. -/
theorem sell_blocked (a : Account) (d : ℕ) (ts : String) (price : ℚ) (pos0 : Position)
    (hl : posLookup a.positions ts = some pos0)
    (hc : (pos0.update_can_sell d).can_sell = false) :
    a.sell d ts price =
      (false, { a with positions := posUpdate a.positions ts (fun p => p.update_can_sell d) }) := by
  simp [Account.sell, hl, hc]

/-- Successful `Account.sell`, with the resulting account written out. -/
theorem sell_success (a : Account) (d : ℕ) (ts : String) (price : ℚ) (pos0 : Position)
    (hl : posLookup a.positions ts = some pos0)
    (hc : (pos0.update_can_sell d).can_sell = true) :
    a.sell d ts price =
      (true,
        { a with
          available_cash := a.available_cash + sellNetIncome pos0 price
          positions := posErase (posUpdate a.positions ts (fun p => p.update_can_sell d)) ts
          daily_sold_pnl :=
            soldPnlUpdate a.daily_sold_pnl d ts (sellNetIncome pos0 price - pos0.buy_total_cost)
          trade_history := a.trade_history ++
            [{ trade_date := d, ts_code := ts, direction := .sellDir
               price := roundTo 4 (price * (1 - SLIPPAGE_RATE))
               volume := pos0.buy_volume
               commission :=
                 roundTo 2 (max ((pos0.buy_volume : ℚ) * (price * (1 - SLIPPAGE_RATE)) *
                   COMMISSION_RATE) 5)
               stamp_duty :=
                 roundTo 2 ((pos0.buy_volume : ℚ) * (price * (1 - SLIPPAGE_RATE)) *
                   STAMP_DUTY_RATE)
               total_cost := none
               total_income := some (roundTo 2 (sellNetIncome pos0 price))
               sell_pnl :=
                 some (roundTo 2 (sellNetIncome pos0 price - pos0.buy_total_cost)) }] }) := by
  have hc' : pos0.buy_date < d := by
    simpa [Position.update_can_sell, T_PLUS_1] using hc
  simp [Account.sell, hl, Position.update_can_sell, T_PLUS_1, hc', sellNetIncome]

/-- Any rejection branch of `Account.buy` returns the account unchanged;
the slot check. -/
theorem buy_no_slot (a : Account) (d : ℕ) (ts : String) (price : ℚ)
    (h : a.get_available_position_count ≤ 0) : a.buy d ts price = (false, a) := by
  simp [Account.buy, h]

/-- Inversion: a successful `Account.buy` passed all four checks. -/
theorem buy_true_inv (a : Account) (d : ℕ) (ts : String) (price : ℚ)
    (h : (a.buy d ts price).1 = true) :
    ¬ a.get_available_position_count ≤ 0 ∧ posLookup a.positions ts = none ∧
    ¬ maxCanBuy a price < MIN_TRADE_VOLUME ∧ ¬ a.available_cash < buyTotalCost a price := by
  simp only [Account.buy, maxCanBuy, buyTotalCost] at h ⊢
  split_ifs at h with c1 c2 c3 c4
  all_goals simp_all

/-- Successful `Account.buy`, with the resulting account written out. -/
theorem buy_success (a : Account) (d : ℕ) (ts : String) (price : ℚ)
    (h1 : ¬ a.get_available_position_count ≤ 0)
    (h2 : posLookup a.positions ts = none)
    (h3 : ¬ maxCanBuy a price < MIN_TRADE_VOLUME)
    (h4 : ¬ a.available_cash < buyTotalCost a price) :
    a.buy d ts price =
      (true,
        { a with
          available_cash := a.available_cash - buyTotalCost a price
          positions := a.positions ++
            [(ts, Position.init ts (price * (1 + SLIPPAGE_RATE)) (maxCanBuy a price) d
              (buyTotalCost a price))]
          trade_history := a.trade_history ++
            [{ trade_date := d, ts_code := ts, direction := .buyDir
               price := roundTo 4 (price * (1 + SLIPPAGE_RATE))
               volume := maxCanBuy a price
               commission :=
                 roundTo 2 (max ((maxCanBuy a price : ℚ) * (price * (1 + SLIPPAGE_RATE)) *
                   COMMISSION_RATE) 5)
               stamp_duty := 0
               total_cost := some (roundTo 2 (buyTotalCost a price))
               total_income := none
               sell_pnl := none }] }) := by
  simp only [Account.buy]
  rw [if_neg h1, if_neg (by simp [h2]), if_neg (by simpa [maxCanBuy] using h3),
    if_neg (by simpa [buyTotalCost, maxCanBuy] using h4)]
  rfl

/-- Claim C5, counterexample: for the main-board symbol 600000.SH with
previous close 2.35 the computed limit price is not 2.59 (the configured
main-board rate is 0.098, giving round(2.35 × 1.098, 2) = 2.58). -/
theorem C5_counterexample :
    MultiLimitUpStrategy.get_limit_up_rate_by_ts_code ("600000.SH") = MAIN_BOARD_LIMIT_UP_RATE ∧
    MultiLimitUpStrategy.calc_limit_up_price ("600000.SH") (2.35 : ℚ) ≠ 2.59 := by
  have hrate : MultiLimitUpStrategy.get_limit_up_rate_by_ts_code ("600000.SH") =
      MAIN_BOARD_LIMIT_UP_RATE := by
    simp [MultiLimitUpStrategy.get_limit_up_rate_by_ts_code, MultiLimitUpStrategy.tsSplitCode,
      MultiLimitUpStrategy.tsSplitExch, MultiLimitUpStrategy.pyStartsWith,
      MultiLimitUpStrategy.charPrefix]
  refine ⟨hrate, ?_⟩
  norm_num [MultiLimitUpStrategy.calc_limit_up_price, hrate, MAIN_BOARD_LIMIT_UP_RATE,
    roundTo, roundHalfEven, round_eq]

/-- Claim C5 (amended): for every symbol classified main-board,
`calc_limit_up_price` at previous close 2.35 returns 2.58 (the configured
main-board band is 0.098, and round(2.35 × 1.098, 2) = 2.58). -/
theorem C5_limit_price_amended (ts : String)
    (h : MultiLimitUpStrategy.get_limit_up_rate_by_ts_code ts = MAIN_BOARD_LIMIT_UP_RATE) :
    MultiLimitUpStrategy.calc_limit_up_price ts (2.35 : ℚ) = 2.58 := by
  simp only [MultiLimitUpStrategy.calc_limit_up_price, h]
  norm_num [MAIN_BOARD_LIMIT_UP_RATE, roundTo, roundHalfEven, round_eq]

/-- Witness for C5: the amended scenario evaluated at 600000.SH. -/
theorem C5_witness : MultiLimitUpStrategy.calc_limit_up_price ("600000.SH") (2.35 : ℚ) = 2.58 :=
  C5_limit_price_amended ("600000.SH") (by
    simp [MultiLimitUpStrategy.get_limit_up_rate_by_ts_code, MultiLimitUpStrategy.tsSplitCode,
      MultiLimitUpStrategy.tsSplitExch, MultiLimitUpStrategy.pyStartsWith,
      MultiLimitUpStrategy.charPrefix])

/-- Claim C2: a sell attempted on the buy date is rejected and the
identical sell on any strictly later trading day succeeds; the `can_sell`
flag computed by a check equals `buy_date < current date`, so it is false
for every check on the entry date and true for every check on a later
date, and re-checking on the same date never changes it. -/
theorem C2_t_plus_one_sellability (a : Account) (ts : String) (pos : Position) (d : ℕ)
    (price : ℚ) (hpos : posLookup a.positions ts = some pos) :
    (d = pos.buy_date → (a.sell d ts price).1 = false) ∧
    (pos.buy_date < d → (a.sell d ts price).1 = true) ∧
    (∀ p : Position, (p.update_can_sell d).can_sell = decide (p.buy_date < d)) ∧
    (∀ p : Position, (p.update_can_sell d).update_can_sell d = p.update_can_sell d) := by
  refine ⟨fun hd => ?_, fun hd => ?_,
    fun p => by simp [Position.update_can_sell, T_PLUS_1],
    fun p => by simp [Position.update_can_sell, T_PLUS_1]⟩
  · rw [sell_blocked a d ts price pos hpos
      (by simp [Position.update_can_sell, T_PLUS_1, hd])]
  · rw [sell_success a d ts price pos hpos
      (by simp [Position.update_can_sell, T_PLUS_1, hd])]

/-- Witness for C2: same-day sell of the held position is rejected and the
next-day sell succeeds. -/
theorem C2_witness :
    (acctHeld.sell 20240101 ("X") 10).1 = false ∧
    (acctHeld.sell 20240102 ("X") 10).1 = true :=
  ⟨(C2_t_plus_one_sellability acctHeld ("X") posHeld 20240101 10
      (by simp [acctHeld, posLookup])).1 rfl,
   (C2_t_plus_one_sellability acctHeld ("X") posHeld 20240102 10
      (by simp [acctHeld, posLookup])).2.1 (by decide)⟩

/-- Claim C9: every successful sell disposes of the whole position — the
appended ledger row is a sell whose quantity is the position's full
`buy_volume`, and the symbol is no longer in the positions map. -/
theorem C9_all_or_nothing_sell (a : Account) (d : ℕ) (ts : String) (price : ℚ)
    (h : (a.sell d ts price).1 = true) :
    ∃ pos tr, posLookup a.positions ts = some pos ∧
      (a.sell d ts price).2.trade_history = a.trade_history ++ [tr] ∧
      tr.direction = Direction.sellDir ∧ tr.volume = pos.buy_volume ∧
      posLookup ((a.sell d ts price).2).positions ts = none := by
  rcases hl : posLookup a.positions ts with _ | pos0
  · rw [sell_not_held a d ts price hl] at h
    exact absurd h (by simp)
  · by_cases hc : (pos0.update_can_sell d).can_sell = true
    · rw [sell_success a d ts price pos0 hl hc]
      exact ⟨pos0, _, rfl, rfl, rfl, rfl, posLookup_posErase _ ts⟩
    · rw [sell_blocked a d ts price pos0 hl (by simpa using hc)] at h
      exact absurd h (by simp)

/-- Witness for C9: the next-day sell of the held position. -/
theorem C9_witness :
    ∃ pos tr, posLookup acctHeld.positions ("X") = some pos ∧
      (acctHeld.sell 20240102 ("X") 10).2.trade_history = acctHeld.trade_history ++ [tr] ∧
      tr.direction = Direction.sellDir ∧ tr.volume = pos.buy_volume ∧
      posLookup ((acctHeld.sell 20240102 ("X") 10).2).positions ("X") = none :=
  C9_all_or_nothing_sell acctHeld 20240102 ("X") 10 (by
    rw [sell_success acctHeld 20240102 ("X") 10 posHeld (by simp [acctHeld, posLookup])
      (by simp [Position.update_can_sell, T_PLUS_1, posHeld])])

/-- Any rejected `Account.buy` returns the account unchanged. -/
theorem buy_rejected_eq (a : Account) (d : ℕ) (ts : String) (price : ℚ)
    (h : (a.buy d ts price).1 = false) : (a.buy d ts price).2 = a := by
  simp only [Account.buy] at h ⊢
  split_ifs at h ⊢ <;> first | rfl | simp at h

/-- Common concrete successful buy: one lot of a 10-priced stock on a fresh
five-slot 10000 account. -/
theorem init_buy_example_true : ((Account.init 10000 5).buy 20240101 ("A") 10).1 = true := by
  rw [buy_success (Account.init 10000 5) 20240101 ("A") 10
    (by norm_num [Account.init, Account.get_available_position_count])
    (by simp [Account.init, posLookup])
    (by norm_num [maxCanBuy, Account.init, pyInt, SLIPPAGE_RATE, MIN_TRADE_VOLUME])
    (by norm_num [buyTotalCost, maxCanBuy, Account.init, pyInt, SLIPPAGE_RATE,
      MIN_TRADE_VOLUME, COMMISSION_RATE, max_def])]

/-- Claim C10 (amended): a rejected buy leaves the account exactly as
before; a rejected sell leaves cash, ledger, net-value records, sold-pnl
records and the held-symbol set unchanged but recomputes the held
position's `can_sell` flag in place — and nothing else, so the state is
fully unchanged whenever that recomputation is a no-op (in particular
whenever the simulated dates never run backwards). -/
theorem C10_rejection_atomicity_amended (a : Account) (d : ℕ) (ts : String) (price : ℚ) :
    ((a.buy d ts price).1 = false → (a.buy d ts price).2 = a) ∧
    ((a.sell d ts price).1 = false →
      (a.sell d ts price).2 =
        { a with positions := posUpdate a.positions ts (fun p => p.update_can_sell d) }) ∧
    (posUpdate a.positions ts (fun p => p.update_can_sell d)).map Prod.fst =
      a.positions.map Prod.fst ∧
    ((a.positions.map Prod.fst).Nodup →
      ∀ pos, posLookup a.positions ts = some pos → pos.update_can_sell d = pos →
        (a.sell d ts price).1 = false → (a.sell d ts price).2 = a) := by
  refine ⟨buy_rejected_eq a d ts price, ?_, posUpdate_map_fst a.positions ts _, ?_⟩
  · intro h
    rcases hl : posLookup a.positions ts with _ | pos0
    · rw [sell_not_held a d ts price hl, posUpdate_of_lookup_none a.positions ts _ hl]
    · by_cases hc : (pos0.update_can_sell d).can_sell = true
      · rw [sell_success a d ts price pos0 hl hc] at h
        simp at h
      · rw [sell_blocked a d ts price pos0 hl (by simpa using hc)]
  · intro hnd pos hlk hfix h
    by_cases hc : (pos.update_can_sell d).can_sell = true
    · rw [sell_success a d ts price pos hlk hc] at h
      simp at h
    · rw [sell_blocked a d ts price pos hlk (by simpa using hc),
        posUpdate_id_of_fixed a.positions ts _ hnd pos hlk hfix]

/-- Counterexample for C10: a rejected sell is not a no-op — attempting to
sell a position whose stored `can_sell` flag is stale-true at a date not
later than the buy date returns False yet flips the stored flag, so the
account state differs from the state before the call. -/
theorem C10_counterexample :
    (acctStale.sell 20240104 ("X") 10).1 = false ∧
    (acctStale.sell 20240104 ("X") 10).2 ≠ acctStale := by
  have hblk := sell_blocked acctStale 20240104 ("X") 10 posStale
    (by simp [acctStale, posLookup])
    (by simp [Position.update_can_sell, T_PLUS_1, posStale, posHeld])
  rw [hblk]
  refine ⟨rfl, fun h => ?_⟩
  have h2 := congrArg (fun x => (posLookup x.positions ("X")).map Position.can_sell) h
  simp [acctStale, posStale, posHeld, posUpdate, posLookup, Position.update_can_sell,
    T_PLUS_1] at h2

/-- Witness for C10: a rejected duplicate buy leaves the account unchanged. -/
theorem C10_witness : (acctHeld.buy 20240101 ("X") 10).2 = acctHeld :=
  (C10_rejection_atomicity_amended acctHeld 20240101 ("X") 10).1
    (by simp [Account.buy, acctHeld, posLookup])

theorem pyInt_cast_le_self (q : ℚ) (h : 0 ≤ q) : (pyInt q : ℚ) ≤ q := by
  rw [pyInt, if_pos h]
  exact Int.floor_le q

theorem one_le_of_one_le_pyInt (q : ℚ) (h : 1 ≤ pyInt q) : 1 ≤ q := by
  rcases le_or_lt 0 q with h0 | h0
  · rw [pyInt, if_pos h0] at h
    exact_mod_cast Int.le_floor.mp h
  · exfalso
    rw [pyInt, if_neg (not_le.mpr h0)] at h
    have h1 : (0 : ℤ) ≤ ⌊-q⌋ := Int.floor_nonneg.mpr (by linarith)
    omega

/-- Claim C1 (amended): position count stays within the slot count under
both orders; cash is ≥ 0 after every buy fill with no side condition; buy
rejects on no free slot, on an already-held symbol, and when the computed
total cost exceeds available cash; a sell fill changes cash by exactly the
net proceeds, hence keeps cash ≥ 0 whenever those proceeds are ≥ 0 (they
can be negative only when the gross proceeds fall below the 5-unit minimum
commission plus stamp duty, which is the counterexample's case). -/
theorem C1_slot_cash_invariant_amended (a : Account) (d : ℕ) (ts : String) (price : ℚ) :
    (a.positions.length ≤ a.max_position_count →
      ((a.buy d ts price).2.positions.length ≤ a.max_position_count ∧
       (a.sell d ts price).2.positions.length ≤ a.max_position_count)) ∧
    ((a.buy d ts price).1 = true → 0 ≤ (a.buy d ts price).2.available_cash) ∧
    (a.get_available_position_count ≤ 0 → (a.buy d ts price).1 = false) ∧
    ((posLookup a.positions ts).isSome = true → (a.buy d ts price).1 = false) ∧
    (a.available_cash < buyTotalCost a price → (a.buy d ts price).1 = false) ∧
    (∀ pos, posLookup a.positions ts = some pos → (a.sell d ts price).1 = true →
      (a.sell d ts price).2.available_cash = a.available_cash + sellNetIncome pos price ∧
      (0 ≤ a.available_cash → 0 ≤ sellNetIncome pos price →
        0 ≤ (a.sell d ts price).2.available_cash)) := by
  refine ⟨fun hlen => ⟨?_, ?_⟩, ?_, ?_, ?_, ?_, ?_⟩
  · by_cases hb : (a.buy d ts price).1 = true
    · obtain ⟨h1, h2, h3, h4⟩ := buy_true_inv a d ts price hb
      rw [buy_success a d ts price h1 h2 h3 h4]
      simp only [Account.get_available_position_count, not_le] at h1
      simp only [List.length_append, List.length_cons, List.length_nil]
      omega
    · rw [buy_rejected_eq a d ts price (by simpa using hb)]
      exact hlen
  · rcases hl : posLookup a.positions ts with _ | pos0
    · rw [sell_not_held a d ts price hl]
      exact hlen
    · by_cases hc : (pos0.update_can_sell d).can_sell = true
      · rw [sell_success a d ts price pos0 hl hc]
        refine le_trans (le_trans (List.length_filter_le _ _) ?_) hlen
        simp [posUpdate]
      · rw [sell_blocked a d ts price pos0 hl (by simpa using hc)]
        simpa [posUpdate] using hlen
  · intro hb
    obtain ⟨h1, h2, h3, h4⟩ := buy_true_inv a d ts price hb
    rw [buy_success a d ts price h1 h2 h3 h4]
    push_neg at h4
    simp only
    linarith
  · intro h
    rw [buy_no_slot a d ts price h]
  · intro h
    by_cases h1 : a.get_available_position_count ≤ 0
    · rw [buy_no_slot a d ts price h1]
    · simp [Account.buy, h1, h]
  · intro h
    by_contra hb
    rw [Bool.not_eq_false] at hb
    obtain ⟨_, _, _, h4⟩ := buy_true_inv a d ts price hb
    exact h4 h
  · intro pos hl hst
    by_cases hc : (pos.update_can_sell d).can_sell = true
    · rw [sell_success a d ts price pos hl hc]
      exact ⟨rfl, fun hc1 hc2 => by simp only; linarith⟩
    · rw [sell_blocked a d ts price pos hl (by simpa using hc)] at hst
      simp at hst

/-- Counterexample for C1: with zero free cash, selling the held 100-share
position at a price of 0.01 succeeds (T+1 satisfied) yet drives the
available cash strictly below zero, because the gross proceeds of 0.999 are
smaller than the 5-unit minimum commission plus stamp duty. -/
theorem C1_cash_counterexample :
    (acctBroke.sell 20240102 ("X") (1/100)).1 = true ∧
    (acctBroke.sell 20240102 ("X") (1/100)).2.available_cash < 0 := by
  rw [sell_success acctBroke 20240102 ("X") (1/100) posHeld
    (by simp [acctBroke, posLookup])
    (by simp [Position.update_can_sell, T_PLUS_1, posHeld])]
  refine ⟨rfl, ?_⟩
  norm_num [acctBroke, Account.init, sellNetIncome, posHeld, SLIPPAGE_RATE,
    COMMISSION_RATE, STAMP_DUTY_RATE, max_def]

/-- Witness for C1: on a fresh account a successful buy keeps the position
count within the slots and the cash non-negative. -/
theorem C1_witness :
    ((Account.init 10000 5).buy 20240101 ("A") 10).2.positions.length ≤
      (Account.init 10000 5).max_position_count ∧
    0 ≤ ((Account.init 10000 5).buy 20240101 ("A") 10).2.available_cash :=
  ⟨((C1_slot_cash_invariant_amended (Account.init 10000 5) 20240101 ("A") 10).1
      (by simp [Account.init])).1,
   (C1_slot_cash_invariant_amended (Account.init 10000 5) 20240101 ("A") 10).2.1
      init_buy_example_true⟩

/-- Claim C8: every successful buy creates the position with the fixed
per-slot sizing — the filled quantity `maxCanBuy` is a positive whole
multiple of the 100-share lot and its slippage-adjusted notional never
exceeds `init_capital / max_position_count` (the per-slot capital fixed at
construction), with no assumption on the account's current cash. -/
theorem C8_fixed_slot_sizing (a : Account) (d : ℕ) (ts : String) (price : ℚ)
    (hper : a.per_position_cash = a.init_capital / a.max_position_count)
    (hcap : 0 < a.init_capital) (hmax : 0 < a.max_position_count)
    (h : (a.buy d ts price).1 = true) :
    posLookup ((a.buy d ts price).2).positions ts =
      some (Position.init ts (price * (1 + SLIPPAGE_RATE)) (maxCanBuy a price) d
        (buyTotalCost a price)) ∧
    MIN_TRADE_VOLUME ≤ maxCanBuy a price ∧ MIN_TRADE_VOLUME ∣ maxCanBuy a price ∧
    (maxCanBuy a price : ℚ) * (price * (1 + SLIPPAGE_RATE)) ≤
      a.init_capital / a.max_position_count := by
  obtain ⟨h1, h2, h3, h4⟩ := buy_true_inv a d ts price h
  have h3' := h3
  push_neg at h3'
  have hper0 : 0 < a.per_position_cash := by
    rw [hper]
    exact div_pos hcap (by exact_mod_cast hmax)
  have hk : 1 ≤ pyInt (a.per_position_cash /
      (price * (1 + SLIPPAGE_RATE) * (MIN_TRADE_VOLUME : ℚ))) := by
    have h100 := h3'
    rw [maxCanBuy] at h100
    simp only [MIN_TRADE_VOLUME] at h100 ⊢
    omega
  have hq1 : 1 ≤ a.per_position_cash /
      (price * (1 + SLIPPAGE_RATE) * (MIN_TRADE_VOLUME : ℚ)) :=
    one_le_of_one_le_pyInt _ hk
  have hden : 0 < price * (1 + SLIPPAGE_RATE) * (MIN_TRADE_VOLUME : ℚ) := by
    rcases lt_trichotomy (price * (1 + SLIPPAGE_RATE) * (MIN_TRADE_VOLUME : ℚ)) 0 with
      hlt | heq | hgt
    · exact absurd (div_neg_of_pos_of_neg hper0 hlt) (by linarith)
    · have hq0 : a.per_position_cash /
          (price * (1 + SLIPPAGE_RATE) * (MIN_TRADE_VOLUME : ℚ)) = 0 := by
        rw [heq, div_zero]
      linarith
    · exact hgt
  refine ⟨?_, h3', ?_, ?_⟩
  · rw [buy_success a d ts price h1 h2 h3 h4]
    exact posLookup_append_single a.positions ts _ h2
  · rw [maxCanBuy]
    exact dvd_mul_left _ _
  · have hkq := pyInt_cast_le_self _ (by linarith : (0 : ℚ) ≤ a.per_position_cash /
      (price * (1 + SLIPPAGE_RATE) * (MIN_TRADE_VOLUME : ℚ)))
    have hmul := mul_le_mul_of_nonneg_right hkq hden.le
    rw [div_mul_cancel₀ _ hden.ne'] at hmul
    rw [← hper, maxCanBuy]
    push_cast
    ring_nf at hmul ⊢
    linarith

/-- Witness for C8: the fresh-account buy of a 10-priced stock fills
exactly one lot (100 shares at 10.01, inside the 2000-per-slot budget). -/
theorem C8_witness :
    posLookup (((Account.init 10000 5).buy 20240101 ("A") 10).2).positions ("A") =
      some (Position.init ("A") (10 * (1 + SLIPPAGE_RATE))
        (maxCanBuy (Account.init 10000 5) 10) 20240101
        (buyTotalCost (Account.init 10000 5) 10)) ∧
    MIN_TRADE_VOLUME ≤ maxCanBuy (Account.init 10000 5) 10 ∧
    MIN_TRADE_VOLUME ∣ maxCanBuy (Account.init 10000 5) 10 ∧
    (maxCanBuy (Account.init 10000 5) 10 : ℚ) * (10 * (1 + SLIPPAGE_RATE)) ≤
      (Account.init 10000 5).init_capital / (Account.init 10000 5).max_position_count :=
  C8_fixed_slot_sizing (Account.init 10000 5) 20240101 ("A") 10 rfl
    (by norm_num [Account.init]) (by norm_num [Account.init]) init_buy_example_true

theorem matchTrades_nil_sells (bs : List Trade) : BacktestMetrics.matchTrades bs [] = [] := by
  induction bs with
  | nil => rfl
  | cons b rest ih => simp [BacktestMetrics.matchTrades, ih]

/-- A ledger without sell rows yields no matched round-trip trades. -/
theorem complete_trades_of_no_sell (trades : List Trade)
    (h : ∀ t ∈ trades, t.direction ≠ Direction.sellDir) :
    BacktestMetrics._calc_complete_trades trades = [] := by
  have hfil : trades.filter (fun t => t.direction = Direction.sellDir) = [] := by
    simp only [List.filter_eq_nil_iff]
    intro t ht
    simpa using h t ht
  rw [BacktestMetrics._calc_complete_trades]
  split_ifs with h1 h2
  · rfl
  · simp only [hfil, matchTrades_nil_sells]
  · rfl

/-- Claim C7: on a one-row net-asset series or a zero-sell ledger the
evaluator raises neither `ValueError` (the constructor succeeds) nor any
downstream error (the pipeline is total), and returns neutral/zero
statistics: NaN-as-`none` volatility and Sharpe for the one-row series,
zero matched trades and zero win rate for the sell-free ledger — for every
interpretation of the abstract float `sqrt` and power. -/
theorem C7_degenerate_inputs (sqrtQ : ℚ → ℚ) (powQ : ℚ → ℚ → ℚ) (nv : List ℚ) (cap : ℚ)
    (trades : List Trade) (bench : Option (List ℚ)) (hcap : 0 < cap) (hnv : nv ≠ []) :
    (BacktestMetrics.mk? nv cap trades bench).isOk = true ∧
    (∀ m, BacktestMetrics.mk? nv cap trades bench = .ok m →
      ((nv.length = 1 →
        (BacktestMetrics.calc_all_metrics sqrtQ powQ m).annual_vol = none ∧
        (BacktestMetrics.calc_all_metrics sqrtQ powQ m).sharpe_ratio = none) ∧
      ((∀ t ∈ trades, t.direction ≠ Direction.sellDir) →
        (BacktestMetrics.calc_all_metrics sqrtQ powQ m).total_trade_times = 0 ∧
        (BacktestMetrics.calc_all_metrics sqrtQ powQ m).win_rate = 0))) := by
  have hok : BacktestMetrics.mk? nv cap trades bench = .ok
      { net_values := nv, init_capital := cap, trades := trades, benchmark := bench
        daily_return := BacktestMetrics.pct_change_fill0 nv } := by
    rw [BacktestMetrics.mk?, if_neg (by simpa [List.isEmpty_iff] using hnv),
      if_neg (not_le.mpr hcap)]
  refine ⟨by rw [hok]; rfl, ?_⟩
  intro m hm
  rw [hok] at hm
  injection hm with hm
  subst hm
  constructor
  · intro hlen1
    obtain ⟨x, hx⟩ := List.length_eq_one.mp hlen1
    subst hx
    constructor
    · simp [BacktestMetrics.calc_all_metrics, BacktestMetrics.sampleStd,
        BacktestMetrics.pct_change_fill0]
    · simp [BacktestMetrics.calc_all_metrics, BacktestMetrics.sampleStd,
        BacktestMetrics.pct_change_fill0]
  · intro hns
    have hct := complete_trades_of_no_sell trades hns
    constructor
    · simp [BacktestMetrics.calc_all_metrics, hct]
    · simp [BacktestMetrics.calc_all_metrics, hct]
      norm_num [roundTo, roundHalfEven, round_eq]

/-- Witness for C7: a one-element 10000 series with an empty ledger. -/
theorem C7_witness :
    (BacktestMetrics.mk? [10000] 10000 [] none).isOk = true ∧
    (∀ m, BacktestMetrics.mk? [10000] 10000 [] none = .ok m →
      ((([(10000 : ℚ)]).length = 1 →
        (BacktestMetrics.calc_all_metrics (fun q => q) (fun a b => a * b) m).annual_vol = none ∧
        (BacktestMetrics.calc_all_metrics (fun q => q) (fun a b => a * b) m).sharpe_ratio =
          none) ∧
      ((∀ t ∈ ([] : List Trade), t.direction ≠ Direction.sellDir) →
        (BacktestMetrics.calc_all_metrics (fun q => q) (fun a b => a * b) m).total_trade_times =
          0 ∧
        (BacktestMetrics.calc_all_metrics (fun q => q) (fun a b => a * b) m).win_rate = 0))) :=
  C7_degenerate_inputs (fun q => q) (fun a b => a * b) [10000] 10000 [] none (by norm_num)
    (by simp)

namespace MultiLimitUpStrategy

/-- The source's scan loop computes exactly the spec's first
open-then-reseal pattern. -/
theorem reopenScan_eq_resealSpec (th : ℚ) :
    ∀ l, reopenScan th l = resealSpec th l
  | [] => rfl
  | [b] => by
    simp only [reopenScan, resealSpec]
    by_cases h1 : b.low < th
    · by_cases h2 : th ≤ b.close
      · simp [h1, h2]
      · simp [h1, h2, reopenScan]
    · simp [h1, reopenScan]
  | b :: nb :: rest => by
    have ih := reopenScan_eq_resealSpec th (nb :: rest)
    by_cases h1 : b.low < th
    · by_cases h2 : th ≤ b.close
      · simp [reopenScan, resealSpec, h1, h2]
      · by_cases h3 : th ≤ nb.close
        · simp [reopenScan, resealSpec, h1, h2, h3]
        · have e1 : reopenScan th (b :: nb :: rest) = reopenScan th (nb :: rest) := by
            conv_lhs => rw [reopenScan]
            simp [h1, h2, h3]
          have e2 : resealSpec th (b :: nb :: rest) = resealSpec th (nb :: rest) := by
            conv_lhs => rw [resealSpec]
            simp [h1, h2, h3]
          rw [e1, e2, ih]
    · have e1 : reopenScan th (b :: nb :: rest) = reopenScan th (nb :: rest) := by
        conv_lhs => rw [reopenScan]
        simp [h1]
      have e2 : resealSpec th (b :: nb :: rest) = resealSpec th (nb :: rest) := by
        conv_lhs => rw [resealSpec]
        simp [h1]
      rw [e1, e2, ih]

/-- A trace that never drops below the threshold has no reseal pattern. -/
theorem resealSpec_none_of_low_ge (th : ℚ) :
    ∀ l, (∀ b ∈ l, th ≤ b.low) → resealSpec th l = none
  | [] => fun _ => rfl
  | [b] => fun h => by
    have hb := h b (by simp)
    simp [resealSpec, not_lt.mpr hb]
  | b :: nb :: rest => fun h => by
    have hb := h b (by simp)
    have ih := resealSpec_none_of_low_ge th (nb :: rest)
      (fun x hx => h x (List.mem_cons_of_mem b hx))
    simp [resealSpec, not_lt.mpr hb, ih]

/-- For a gap-locked day (open at or above the tolerant limit),
`check_reopen` returns exactly the spec's reseal instant over the
time-sorted bars. -/
theorem check_reopen_eq_resealSpec (bars : List Bar) (lp op : ℚ)
    (hgap : lp * limit_up_price_tolerance ≤ op) :
    check_reopen bars lp op =
      resealSpec (lp * limit_up_price_tolerance) (sortBars bars) := by
  rw [check_reopen]
  rw [if_neg (not_lt.mpr hgap)]
  by_cases h : ¬ bars.isEmpty = true ∧ ∀ b ∈ bars, lp * limit_up_price_tolerance ≤ b.low
  · rw [if_pos h]
    exact (resealSpec_none_of_low_ge _ _
      (fun b hb => h.2 b (List.mem_mergeSort.mp hb))).symm
  · rw [if_neg h]
    exact reopenScan_eq_resealSpec _ _

/-- Inversion of the candidate loop: a collected hit comes from a candidate
row with that code, non-empty minute data, and either a gap-locked reseal
or a first-touch instant. -/
theorem mem_hitsList (minData : String → List Bar) :
    ∀ l ts t, (ts, t) ∈ hitsList minData l →
      ∃ p ∈ l, (p : DailyRow × ℚ).1.ts_code = ts ∧ ¬ (minData p.1.ts_code).isEmpty = true ∧
        ((p.2 * limit_up_price_tolerance ≤ p.1.openPrice ∧
            check_reopen (minData p.1.ts_code) p.2 p.1.openPrice = some t) ∨
         (¬ p.2 * limit_up_price_tolerance ≤ p.1.openPrice ∧
            get_first_limit_time (minData p.1.ts_code) p.2 = some t))
  | [], ts, t, h => by simp [hitsList] at h
  | (r, lup) :: rest, ts, t, h => by
    rw [hitsList] at h
    by_cases hb : (minData r.ts_code).isEmpty = true
    · rw [if_pos hb] at h
      obtain ⟨p, hp, hrest⟩ := mem_hitsList minData rest ts t h
      exact ⟨p, List.mem_cons_of_mem _ hp, hrest⟩
    · rw [if_neg hb] at h
      by_cases hgap : lup * limit_up_price_tolerance ≤ r.openPrice
      · rw [if_pos hgap] at h
        rcases hcr : check_reopen (minData r.ts_code) lup r.openPrice with _ | t'
        · rw [hcr] at h
          obtain ⟨p, hp, hrest⟩ := mem_hitsList minData rest ts t h
          exact ⟨p, List.mem_cons_of_mem _ hp, hrest⟩
        · rw [hcr] at h
          rcases List.mem_cons.mp h with hhd | htl
          · injection hhd with hts ht
            exact ⟨(r, lup), List.mem_cons_self _ _, hts.symm, hb,
              Or.inl ⟨hgap, by rw [hcr, ht]⟩⟩
          · obtain ⟨p, hp, hrest⟩ := mem_hitsList minData rest ts t htl
            exact ⟨p, List.mem_cons_of_mem _ hp, hrest⟩
      · rw [if_neg hgap] at h
        rcases hfl : get_first_limit_time (minData r.ts_code) lup with _ | t'
        · rw [hfl] at h
          obtain ⟨p, hp, hrest⟩ := mem_hitsList minData rest ts t h
          exact ⟨p, List.mem_cons_of_mem _ hp, hrest⟩
        · rw [hfl] at h
          rcases List.mem_cons.mp h with hhd | htl
          · injection hhd with hts ht
            exact ⟨(r, lup), List.mem_cons_self _ _, hts.symm, hb,
              Or.inr ⟨hgap, by rw [hfl, ht]⟩⟩
          · obtain ⟨p, hp, hrest⟩ := mem_hitsList minData rest ts t htl
            exact ⟨p, List.mem_cons_of_mem _ hp, hrest⟩

end MultiLimitUpStrategy

namespace MultiLimitUpStrategy

/-- Every symbol returned by `select_buy_stocks` stems from a collected
candidate hit. -/
theorem mem_select_exists_hit (fB fS fM : Bool) (df : List DailyRow)
    (minData : String → List Bar) (avail : ℤ) (ts : String)
    (h : ts ∈ select_buy_stocks fB fS fM df minData avail) :
    ∃ t, (ts, t) ∈ hitsList minData
      (((df.filter (fun r => filter_stock_by_type fB fS fM r.ts_code && (0 < r.pre_close))).map
        (fun r => (r, roundTo 2 (r.pre_close * (1 + get_limit_up_rate_by_ts_code r.ts_code))))).filter
        (fun p => p.2 * limit_up_price_tolerance ≤ p.1.high)) := by
  rw [select_buy_stocks] at h
  by_cases hav : avail ≤ 0
  · rw [if_pos hav] at h
    simp at h
  · rw [if_neg hav] at h
    simp only [List.mem_map] at h
    obtain ⟨pair, hpair, hfst⟩ := h
    obtain ⟨ts', t⟩ := pair
    have h2 := List.mem_mergeSort.mp (List.take_subset _ _ hpair)
    subst hfst
    exact ⟨t, h2⟩

end MultiLimitUpStrategy

/-- Claim C4: for a gap-locked symbol (open at or above limit × tolerance)
the engine's entry instant is exactly the spec's reseal instant — the
timestamp of the reseal bar of the first bar that drops below the tolerant
limit threshold and reseals in the same or the next bar — and when no such
open-then-reseal pattern exists in the day's (time-sorted) intraday bars
the symbol is excluded from the buy list entirely. -/
theorem C4_gap_lock_reseal (bars : List MultiLimitUpStrategy.Bar) (lp op : ℚ)
    (fB fS fM : Bool) (df : List DailyRow)
    (minData : String → List MultiLimitUpStrategy.Bar) (avail : ℤ) (r : DailyRow)
    (hgapA : lp * MultiLimitUpStrategy.limit_up_price_tolerance ≤ op)
    (hr : r ∈ df) (huniq : ∀ r' ∈ df, r'.ts_code = r.ts_code → r' = r)
    (hgap : MultiLimitUpStrategy.lupOf r * MultiLimitUpStrategy.limit_up_price_tolerance ≤
      r.openPrice)
    (hnone : MultiLimitUpStrategy.resealSpec
      (MultiLimitUpStrategy.lupOf r * MultiLimitUpStrategy.limit_up_price_tolerance)
      (MultiLimitUpStrategy.sortBars (minData r.ts_code)) = none) :
    MultiLimitUpStrategy.check_reopen bars lp op =
      MultiLimitUpStrategy.resealSpec (lp * MultiLimitUpStrategy.limit_up_price_tolerance)
        (MultiLimitUpStrategy.sortBars bars) ∧
    r.ts_code ∉ MultiLimitUpStrategy.select_buy_stocks fB fS fM df minData avail := by
  refine ⟨MultiLimitUpStrategy.check_reopen_eq_resealSpec bars lp op hgapA, fun hmem => ?_⟩
  obtain ⟨t, hhit⟩ :=
    MultiLimitUpStrategy.mem_select_exists_hit fB fS fM df minData avail r.ts_code hmem
  obtain ⟨p, hpc, hpts, hpne, hcase⟩ := MultiLimitUpStrategy.mem_hitsList minData _ _ _ hhit
  obtain ⟨hpw, hphigh⟩ := List.mem_filter.mp hpc
  obtain ⟨r', hr', hpr⟩ := List.mem_map.mp hpw
  obtain ⟨hrdf, hrcond⟩ := List.mem_filter.mp hr'
  have hr'r : r' = r := huniq r' hrdf (by rw [← hpr] at hpts; exact hpts)
  subst hr'r
  rw [← hpr] at hcase
  rcases hcase with ⟨_, hsome⟩ | ⟨hngap, _⟩
  · rw [MultiLimitUpStrategy.check_reopen_eq_resealSpec _ _ _
      (by simpa [MultiLimitUpStrategy.lupOf] using hgap)] at hsome
    simp only [MultiLimitUpStrategy.lupOf] at hnone
    rw [hnone] at hsome
    exact Option.noConfusion hsome
  · exact hngap (by simpa [MultiLimitUpStrategy.lupOf] using hgap)

theorem lupOf_rC4 : MultiLimitUpStrategy.lupOf rC4 = 10.98 := by
  have hrate : MultiLimitUpStrategy.get_limit_up_rate_by_ts_code rC4.ts_code =
      MAIN_BOARD_LIMIT_UP_RATE := by
    simp [rC4, MultiLimitUpStrategy.get_limit_up_rate_by_ts_code,
      MultiLimitUpStrategy.tsSplitCode, MultiLimitUpStrategy.tsSplitExch,
      MultiLimitUpStrategy.pyStartsWith, MultiLimitUpStrategy.charPrefix]
  rw [MultiLimitUpStrategy.lupOf, hrate]
  norm_num [rC4, MAIN_BOARD_LIMIT_UP_RATE, roundTo, roundHalfEven, round_eq]

/-- Witness for C4: the never-reopening gap-locked symbol of `dfC4` is
excluded from the buy list, and its `check_reopen` agrees with the spec's
reseal scan. -/
theorem C4_witness :
    MultiLimitUpStrategy.check_reopen (minDataC4 ("600000.SH"))
        (MultiLimitUpStrategy.lupOf rC4) rC4.openPrice =
      MultiLimitUpStrategy.resealSpec
        (MultiLimitUpStrategy.lupOf rC4 * MultiLimitUpStrategy.limit_up_price_tolerance)
        (MultiLimitUpStrategy.sortBars (minDataC4 ("600000.SH"))) ∧
    rC4.ts_code ∉ MultiLimitUpStrategy.select_buy_stocks false false false dfC4 minDataC4 5 :=
  C4_gap_lock_reseal (minDataC4 ("600000.SH")) (MultiLimitUpStrategy.lupOf rC4) rC4.openPrice
    false false false dfC4 minDataC4 5 rC4
    (by rw [lupOf_rC4]; norm_num [rC4, MultiLimitUpStrategy.limit_up_price_tolerance])
    (by simp [dfC4])
    (by intro r' h' _; simpa [dfC4] using h')
    (by rw [lupOf_rC4]; norm_num [rC4, MultiLimitUpStrategy.limit_up_price_tolerance])
    (by rw [lupOf_rC4]; norm_num [minDataC4, MultiLimitUpStrategy.sortBars, List.mergeSort,
      MultiLimitUpStrategy.resealSpec, MultiLimitUpStrategy.limit_up_price_tolerance])

/-- Claim C3 (amended): within every simulated trading day the engine
executes, in this strict order: carried-over "open"-tagged sells, then
strategy signal generation, then the buys against the slots free at that
point, then the "close"-tagged sells, then the end-of-day asset update —
i.e. the buys precede the close-tagged sells (the spec's §4.4 places the
close sells before the buys; the counterexample separates the two orders). -/
theorem C3_day_order_amended (gen : MultiStockBacktestEngine.SignalGen)
    (st : MultiStockBacktestEngine.EngineState) (d : ℕ) (df : List DailyRow) :
    MultiStockBacktestEngine.runDay gen st d df =
      MultiStockBacktestEngine.runDayPhased gen st d df := rfl

theorem rateA3 : MultiLimitUpStrategy.get_limit_up_rate_by_ts_code ("600000.SH") =
    MAIN_BOARD_LIMIT_UP_RATE := by
  simp [MultiLimitUpStrategy.get_limit_up_rate_by_ts_code, MultiLimitUpStrategy.tsSplitCode,
    MultiLimitUpStrategy.tsSplitExch, MultiLimitUpStrategy.pyStartsWith,
    MultiLimitUpStrategy.charPrefix]

theorem rateB3 : MultiLimitUpStrategy.get_limit_up_rate_by_ts_code ("000001.SZ") =
    MAIN_BOARD_LIMIT_UP_RATE := by
  simp [MultiLimitUpStrategy.get_limit_up_rate_by_ts_code, MultiLimitUpStrategy.tsSplitCode,
    MultiLimitUpStrategy.tsSplitExch, MultiLimitUpStrategy.pyStartsWith,
    MultiLimitUpStrategy.charPrefix]

theorem calcA3 : MultiLimitUpStrategy.calc_limit_up_price ("600000.SH") 10 = 549/50 := by
  simp only [MultiLimitUpStrategy.calc_limit_up_price, rateA3]
  norm_num [MAIN_BOARD_LIMIT_UP_RATE, roundTo, roundHalfEven, round_eq]

theorem calcB3 : MultiLimitUpStrategy.calc_limit_up_price ("000001.SZ") 1 = 11/10 := by
  simp only [MultiLimitUpStrategy.calc_limit_up_price, rateB3]
  norm_num [MAIN_BOARD_LIMIT_UP_RATE, roundTo, roundHalfEven, round_eq]

theorem hlupB3 : roundTo 2 ((1:ℚ) + MultiLimitUpStrategy.get_limit_up_rate_by_ts_code
    ("000001.SZ")) = 11/10 := by
  rw [rateB3]
  norm_num [MAIN_BOARD_LIMIT_UP_RATE, roundTo, roundHalfEven, round_eq]

theorem hlupA3 : roundTo 2 ((10:ℚ) * (1 + MultiLimitUpStrategy.get_limit_up_rate_by_ts_code
    ("600000.SH"))) = 549/50 := by
  rw [rateA3]
  norm_num [MAIN_BOARD_LIMIT_UP_RATE, roundTo, roundHalfEven, round_eq]

theorem genC3_eval : genC3 20240102 dfC3 stC3.account.positions =
    (["000001.SZ"], [("600000.SH", "close")]) := by
  simp only [genC3, MultiLimitUpStrategy.generate_signal, stC3, posA3, dfC3, rowA3, rowB3,
    findRow, List.find?, List.foldl, MultiLimitUpStrategy.select_buy_stocks,
    MultiLimitUpStrategy.filter_stock_by_type,
    MultiLimitUpStrategy.limit_up_price_tolerance, minDataC3]
  norm_num [calcA3, calcB3, hlupA3, hlupB3, MultiLimitUpStrategy.hitsList, minDataC3,
    MultiLimitUpStrategy.get_first_limit_time, MultiLimitUpStrategy.sortBars, List.mergeSort,
    MultiLimitUpStrategy.limit_up_price_tolerance]

theorem buy_false_of_insufficient_cash (a : Account) (d : ℕ) (ts : String) (price : ℚ)
    (h : a.available_cash < buyTotalCost a price) : a.buy d ts price = (false, a) := by
  have hf : (a.buy d ts price).1 = false := by
    by_contra hb
    rw [Bool.not_eq_false] at hb
    obtain ⟨_, _, _, h4⟩ := buy_true_inv a d ts price hb
    exact h4 h
  calc a.buy d ts price = ((a.buy d ts price).1, (a.buy d ts price).2) := rfl
  _ = (false, a) := by rw [hf, buy_rejected_eq a d ts price hf]

theorem posLookup_map_val (ps : List (String × Position)) (g : Position → Position)
    (ts : String) :
    posLookup (ps.map (fun e => (e.1, g e.2))) ts = (posLookup ps ts).map g := by
  induction ps with
  | nil => rfl
  | cons e rest ih =>
    by_cases he : e.1 = ts <;> simp [posLookup, he, ih]

theorem update_daily_asset_positions (a : Account) (d : ℕ) (df : List DailyRow) :
    (a.update_daily_asset d df).positions =
      a.positions.map (fun e => (e.1, e.2.update_hold_days d)) := by
  simp [Account.update_daily_asset]

theorem hfindA3 : findRow dfC3 ("600000.SH") = some rowA3 := by
  simp [findRow, List.find?, dfC3, rowA3, rowB3]

theorem hfindB3 : findRow dfC3 ("000001.SZ") = some rowB3 := by
  simp [findRow, List.find?, dfC3, rowA3, rowB3]

theorem hbuyB3 : stC3.account.buy 20240102 ("000001.SZ") (11/10) = (false, stC3.account) := by
  apply buy_false_of_insufficient_cash
  norm_num [stC3, Account.init, buyTotalCost, pyInt, SLIPPAGE_RATE, COMMISSION_RATE,
    MIN_TRADE_VOLUME, max_def]

theorem havC3 : stC3.account.get_available_position_count = 1 := by
  simp [stC3, Account.init, Account.get_available_position_count]

theorem hrunDayC3 : MultiStockBacktestEngine.runDay genC3 stC3 20240102 dfC3 =
    { account := ((stC3.account.sell 20240102 ("600000.SH") 9).2).update_daily_asset
        20240102 dfC3
      sell_signal_map := [("600000.SH", "close")] } := by
  rw [MultiStockBacktestEngine.runDay, if_neg (by simp [dfC3])]
  simp only [show stC3.sell_signal_map = [] from rfl, List.foldl_nil, genC3_eval,
    havC3, hfindB3, hfindA3, List.take, List.foldl, calcB3, rowA3, rowB3]
  norm_num [hbuyB3]

theorem hlookA3 : posLookup stC3.account.positions ("600000.SH") = some posA3 := by
  simp [stC3, posLookup]

theorem hcanA3 : (posA3.update_can_sell 20240102).can_sell = true := by
  simp [posA3, Position.update_can_sell, T_PLUS_1]

theorem hsoldpos : (stC3.account.sell 20240102 ("600000.SH") 9).2.positions = [] := by
  rw [sell_success stC3.account 20240102 ("600000.SH") 9 posA3 hlookA3 hcanA3]
  simp [stC3, posA3, posUpdate, posErase]

theorem hsoldmax : (stC3.account.sell 20240102 ("600000.SH") 9).2.max_position_count = 2 := by
  rw [sell_success stC3.account 20240102 ("600000.SH") 9 posA3 hlookA3 hcanA3]
  simp [stC3, Account.init]

theorem hsoldper : (stC3.account.sell 20240102 ("600000.SH") 9).2.per_position_cash = 2000 := by
  rw [sell_success stC3.account 20240102 ("600000.SH") 9 posA3 hlookA3 hcanA3]
  norm_num [stC3, Account.init]

theorem hsoldcash : (stC3.account.sell 20240102 ("600000.SH") 9).2.available_cash =
    20932009/10000 := by
  rw [sell_success stC3.account 20240102 ("600000.SH") 9 posA3 hlookA3 hcanA3]
  norm_num [stC3, Account.init, sellNetIncome, posA3, SLIPPAGE_RATE, COMMISSION_RATE,
    STAMP_DUTY_RATE, max_def]

theorem havS3 : (stC3.account.sell 20240102 ("600000.SH") 9).2.get_available_position_count
    = 2 := by
  rw [Account.get_available_position_count, hsoldmax, hsoldpos]
  rfl

theorem hbuyS3_h1 : ¬ (stC3.account.sell 20240102 ("600000.SH")
    9).2.get_available_position_count ≤ 0 := by
  rw [havS3]
  norm_num

theorem hbuyS3_h2 : posLookup (stC3.account.sell 20240102 ("600000.SH") 9).2.positions
    ("000001.SZ") = none := by
  rw [hsoldpos]
  rfl

theorem hbuyS3_h3 : ¬ maxCanBuy (stC3.account.sell 20240102 ("600000.SH") 9).2 (11/10) <
    MIN_TRADE_VOLUME := by
  norm_num [maxCanBuy, hsoldper, pyInt, SLIPPAGE_RATE, MIN_TRADE_VOLUME]

theorem hbuyS3_h4 : ¬ (stC3.account.sell 20240102 ("600000.SH") 9).2.available_cash <
    buyTotalCost (stC3.account.sell 20240102 ("600000.SH") 9).2 (11/10) := by
  norm_num [buyTotalCost, hsoldper, hsoldcash, pyInt, SLIPPAGE_RATE, COMMISSION_RATE,
    MIN_TRADE_VOLUME, max_def]

theorem hrunSpecC3 : MultiStockBacktestEngine.runDaySpecOrder genC3 stC3 20240102 dfC3 =
    { account := ((((stC3.account.sell 20240102 ("600000.SH") 9).2).buy 20240102 ("000001.SZ")
        (11/10)).2).update_daily_asset 20240102 dfC3
      sell_signal_map := [("600000.SH", "close")] } := by
  rw [MultiStockBacktestEngine.runDaySpecOrder, if_neg (by simp [dfC3])]
  simp only [MultiStockBacktestEngine.execOpenSells, MultiStockBacktestEngine.execCloseSells,
    MultiStockBacktestEngine.execBuys, show stC3.sell_signal_map = [] from rfl,
    List.foldl_nil, genC3_eval, havS3, hfindB3, hfindA3, List.take, List.foldl, calcB3,
    rowA3, rowB3]
  norm_num [havS3]

/-- Counterexample for C3: with the real strategy generating a close sell
for held stock A and a buy for candidate B, the engine (buys before close
sells) rejects B for lack of cash and ends the day flat, while the spec's
order (close sells before buys) would fund and hold B — the two orders
produce different states, so the engine does not follow the spec's order. -/
theorem C3_counterexample :
    posLookup (MultiStockBacktestEngine.runDay genC3 stC3 20240102 dfC3).account.positions
        ("000001.SZ") = none ∧
    (posLookup (MultiStockBacktestEngine.runDaySpecOrder genC3 stC3 20240102
        dfC3).account.positions ("000001.SZ")).isSome = true ∧
    MultiStockBacktestEngine.runDay genC3 stC3 20240102 dfC3 ≠
      MultiStockBacktestEngine.runDaySpecOrder genC3 stC3 20240102 dfC3 := by
  have h1 : posLookup (MultiStockBacktestEngine.runDay genC3 stC3 20240102
      dfC3).account.positions ("000001.SZ") = none := by
    rw [hrunDayC3]
    simp only [update_daily_asset_positions, hsoldpos]
    rfl
  have h2 : (posLookup (MultiStockBacktestEngine.runDaySpecOrder genC3 stC3 20240102
      dfC3).account.positions ("000001.SZ")).isSome = true := by
    rw [hrunSpecC3]
    simp only [update_daily_asset_positions]
    rw [buy_success (stC3.account.sell 20240102 ("600000.SH") 9).2 20240102 ("000001.SZ")
      (11/10) hbuyS3_h1 hbuyS3_h2 hbuyS3_h3 hbuyS3_h4]
    simp [hsoldpos, posLookup_map_val, posLookup]
  refine ⟨h1, h2, fun he => ?_⟩
  have h3 := congrArg
    (fun st : MultiStockBacktestEngine.EngineState =>
      (posLookup st.account.positions ("000001.SZ")).isSome) he
  simp only at h3
  rw [h1, h2] at h3
  exact Bool.noConfusion h3

theorem sell_daily_net_value (a : Account) (d : ℕ) (ts : String) (p : ℚ) :
    (a.sell d ts p).2.daily_net_value = a.daily_net_value := by
  rcases hl : posLookup a.positions ts with _ | pos0
  · rw [sell_not_held a d ts p hl]
  · by_cases hc : (pos0.update_can_sell d).can_sell = true
    · rw [sell_success a d ts p pos0 hl hc]
    · rw [sell_blocked a d ts p pos0 hl (by simpa using hc)]

theorem buy_daily_net_value (a : Account) (d : ℕ) (ts : String) (p : ℚ) :
    (a.buy d ts p).2.daily_net_value = a.daily_net_value := by
  by_cases hb : (a.buy d ts p).1 = true
  · obtain ⟨h1, h2, h3, h4⟩ := buy_true_inv a d ts p hb
    rw [buy_success a d ts p h1 h2 h3 h4]
  · rw [buy_rejected_eq a d ts p (by simpa using hb)]

theorem foldl_account_net {α : Type} (f : Account → α → Account)
    (hf : ∀ a x, (f a x).daily_net_value = a.daily_net_value) :
    ∀ (l : List α) (a : Account), (l.foldl f a).daily_net_value = a.daily_net_value
  | [], _ => rfl
  | x :: rest, a => by
    rw [List.foldl_cons, foldl_account_net f hf rest (f a x), hf]

theorem execOpenSells_net (d : ℕ) (df : List DailyRow) (pending : List (String × String))
    (a : Account) :
    (MultiStockBacktestEngine.execOpenSells d df pending a).daily_net_value =
      a.daily_net_value := by
  apply foldl_account_net
  intro a' e
  by_cases he : e.2 = "open"
  · rcases hf : findRow df e.1 with _ | row
    · simp [he, hf]
    · simp [he, hf, sell_daily_net_value]
  · simp [he]

theorem execCloseSells_net (d : ℕ) (df : List DailyRow) (sigmap : List (String × String))
    (a : Account) :
    (MultiStockBacktestEngine.execCloseSells d df sigmap a).daily_net_value =
      a.daily_net_value := by
  apply foldl_account_net
  intro a' e
  by_cases he : e.2 = "close"
  · rcases hf : findRow df e.1 with _ | row
    · simp [he, hf]
    · simp [he, hf, sell_daily_net_value]
  · simp [he]

theorem execBuys_net (d : ℕ) (df : List DailyRow) (bs : List String) (a : Account) :
    (MultiStockBacktestEngine.execBuys d df bs a).daily_net_value = a.daily_net_value := by
  rw [MultiStockBacktestEngine.execBuys]
  by_cases hcond : 0 < a.get_available_position_count ∧ ¬ bs.isEmpty = true
  · rw [if_pos hcond]
    apply foldl_account_net
    intro a' ts
    rcases hf : findRow df ts with _ | row
    · simp [hf]
    · by_cases hpc : row.pre_close ≤ 0
      · simp [hf, hpc]
      · by_cases hl : MultiLimitUpStrategy.calc_limit_up_price ts row.pre_close ≤ 0
        · simp [hf, hpc, hl]
        · simp [hf, hpc, hl, buy_daily_net_value]
  · rw [if_neg hcond]

theorem runDay_phased_eq (gen : MultiStockBacktestEngine.SignalGen)
    (st : MultiStockBacktestEngine.EngineState) (d : ℕ) (df : List DailyRow) :
    MultiStockBacktestEngine.runDay gen st d df =
      MultiStockBacktestEngine.runDayPhased gen st d df := rfl

theorem update_daily_asset_netdates (a : Account) (d : ℕ) (df : List DailyRow) :
    ((a.update_daily_asset d df).daily_net_value).map NetRecord.trade_date =
      a.daily_net_value.map NetRecord.trade_date ++ [d] := by
  simp [Account.update_daily_asset]

theorem runDay_netdates (gen : MultiStockBacktestEngine.SignalGen)
    (st : MultiStockBacktestEngine.EngineState) (d : ℕ) (df : List DailyRow) :
    (((MultiStockBacktestEngine.runDay gen st d df).account.daily_net_value).map
      NetRecord.trade_date) =
    st.account.daily_net_value.map NetRecord.trade_date ++
      (if df.isEmpty then [] else [d]) := by
  rw [runDay_phased_eq, MultiStockBacktestEngine.runDayPhased]
  by_cases hdf : df.isEmpty = true
  · simp [hdf]
  · rw [if_neg hdf]
    simp only [update_daily_asset_netdates, execCloseSells_net, execBuys_net,
      execOpenSells_net]
    simp [hdf]

theorem foldl_days_netdates (gen : MultiStockBacktestEngine.SignalGen) :
    ∀ (days : List (ℕ × List DailyRow)) (st : MultiStockBacktestEngine.EngineState),
    (((days.foldl (fun s e => MultiStockBacktestEngine.runDay gen s e.1 e.2)
        st).account.daily_net_value).map NetRecord.trade_date) =
      st.account.daily_net_value.map NetRecord.trade_date ++
        (days.filter (fun e => ¬ e.2.isEmpty)).map Prod.fst
  | [], st => by simp
  | e :: rest, st => by
    rw [List.foldl_cons, foldl_days_netdates gen rest _, runDay_netdates]
    by_cases he : e.2.isEmpty = true
    · have hnil : e.2 = [] := List.isEmpty_iff.mp he
      simp [he, List.filter_cons, hnil]
    · have hnil : ¬ e.2 = [] := fun h => he (List.isEmpty_iff.mpr h)
      simp [he, List.filter_cons, hnil]

theorem liquidation_fold_net (d : ℕ) (df : List DailyRow) (l : List String) (a : Account) :
    (l.foldl (fun a ts =>
      if (posLookup a.positions ts).isNone then a
      else
        match findRow df ts with
        | none => a
        | some row => (a.sell d ts row.close).2) a).daily_net_value = a.daily_net_value := by
  apply foldl_account_net
  intro a' ts
  by_cases hn : (posLookup a'.positions ts).isNone
  · simp [hn]
  · rcases hf : findRow df ts with _ | row
    · simp [hn, hf]
    · simp [hn, hf, sell_daily_net_value]

theorem mem_of_getLast?_eq : ∀ {l : List ℕ} {b : ℕ}, l.getLast? = some b → b ∈ l
  | [], b, h => by simp at h
  | [a], b, h => by
    have hab : a = b := by simpa using h
    simp [hab]
  | a :: c :: rest, b, h => by
    rw [List.getLast?_cons_cons] at h
    exact List.mem_cons_of_mem a (mem_of_getLast?_eq h)

theorem le_getLast_of_pairwise_lt : ∀ {l : List ℕ} {b : ℕ}, l.getLast? = some b →
    l.Pairwise (· < ·) → ∀ x ∈ l, x ≤ b
  | [], b, h, _, x, hx => by simp at hx
  | [a], b, h, _, x, hx => by
    have hab : a = b := by simpa using h
    have hxa : x = a := by simpa using hx
    simp [hxa, hab]
  | a :: c :: rest, b, h, hp, x, hx => by
    rw [List.getLast?_cons_cons] at h
    rcases List.mem_cons.mp hx with rfl | hx'
    · exact le_of_lt ((List.pairwise_cons.mp hp).1 b (mem_of_getLast?_eq h))
    · exact le_getLast_of_pairwise_lt h (List.pairwise_cons.mp hp).2 x hx'

/-- Claim C6 (amended): over a full run, the engine appends exactly one
net-asset record per processed trading day (a day with data), in calendar
order, plus one additional record dated the final calendar day after the
forced liquidation; hence record dates are non-decreasing (the final date
appears twice when the final day was processed), not strictly increasing. -/
theorem C6_net_records_amended (gen : MultiStockBacktestEngine.SignalGen)
    (dates : List (ℕ × List DailyRow)) (st0 : MultiStockBacktestEngine.EngineState)
    (lastE : ℕ × List DailyRow) (hlast : dates.getLast? = some lastE) :
    (MultiStockBacktestEngine.run gen dates st0).map
      (fun s => s.account.daily_net_value.map NetRecord.trade_date) =
    some (st0.account.daily_net_value.map NetRecord.trade_date ++
      ((dates.filter (fun e => ¬ e.2.isEmpty)).map Prod.fst ++ [lastE.1])) ∧
    (∀ st', MultiStockBacktestEngine.run gen dates st0 = some st' →
      st0.account.daily_net_value = [] →
      List.Pairwise (· < ·) (dates.map Prod.fst) →
      List.Pairwise (· ≤ ·) (st'.account.daily_net_value.map NetRecord.trade_date)) := by
  have hpart1 : (MultiStockBacktestEngine.run gen dates st0).map
      (fun s => s.account.daily_net_value.map NetRecord.trade_date) =
    some (st0.account.daily_net_value.map NetRecord.trade_date ++
      ((dates.filter (fun e => ¬ e.2.isEmpty)).map Prod.fst ++ [lastE.1])) := by
    rw [MultiStockBacktestEngine.run, hlast]
    simp only [Option.map_some']
    simp only [update_daily_asset_netdates, liquidation_fold_net, foldl_days_netdates]
    simp [List.append_assoc]
  refine ⟨hpart1, ?_⟩
  intro st' hrun h0 hsorted
  rw [hrun, Option.map_some'] at hpart1
  injection hpart1 with hdates
  rw [hdates, h0]
  simp only [List.map_nil, List.nil_append]
  rw [List.pairwise_append]
  refine ⟨?_, by simp, ?_⟩
  · exact (List.Pairwise.sublist ((List.filter_sublist dates).map Prod.fst) hsorted).imp
      le_of_lt
  · intro x hxmem y hy
    simp only [List.mem_singleton] at hy
    subst hy
    obtain ⟨e, hef, hex⟩ := List.mem_map.mp hxmem
    have hmem : x ∈ dates.map Prod.fst :=
      List.mem_map.mpr ⟨e, (List.filter_sublist dates).subset hef, hex⟩
    exact le_getLast_of_pairwise_lt
      (by rw [List.getLast?_map, hlast]; rfl) hsorted x hmem

/-- Counterexample for C6: a one-day run with data appends two net-asset
records both dated that day (one from the day loop, one from the
final-liquidation settlement), so the record dates are not strictly
increasing and the processed day does not have exactly one record. -/
theorem C6_counterexample :
    (MultiStockBacktestEngine.run genC6 datesC6 stC6).map
      (fun s => s.account.daily_net_value.map NetRecord.trade_date) =
      some [20240101, 20240101] ∧
    ¬ List.Pairwise (· < ·) [20240101, 20240101] := by
  constructor
  · rw [MultiStockBacktestEngine.run,
      show datesC6.getLast? = some (20240101, [rowA3]) from rfl]
    simp only [Option.map_some']
    simp only [update_daily_asset_netdates, liquidation_fold_net, foldl_days_netdates]
    simp [stC6, Account.init, datesC6]
  · decide

/-- Witness for C6: the amended record-date equation on the one-day run. -/
theorem C6_witness :
    (MultiStockBacktestEngine.run genC6 datesC6 stC6).map
      (fun s => s.account.daily_net_value.map NetRecord.trade_date) =
    some (stC6.account.daily_net_value.map NetRecord.trade_date ++
      ((datesC6.filter (fun e => ¬ e.2.isEmpty)).map Prod.fst ++ [(20240101, [rowA3]).1])) :=
  (C6_net_records_amended genC6 datesC6 stC6 (20240101, [rowA3]) rfl).1
